import Mathlib

/-!
# mupdf2rgb: page rendering into caller buffers

A shallow embedding of `src/HelperDLL/mupdf2rgb/dllmain.c`.

Conventions of the embedding.

* C `int` values are `Int`. An `int` product that indexes a buffer is reduced to
  the 32-bit two's-complement range (`int32`), the value the compiled code
  computes; an `int` length handed to `memcpy` is converted to the 64-bit `size_t`
  (`toSizeT`). Pointers are 64 bits wide, and so is the pixmap field `stride`,
  which the engine declares as `ptrdiff_t`: pointer arithmetic and `y * stride`
  are taken without overflow, as are the sums of pixmap widths and heights.
* C `float` values (page boxes, the zoom factor) are rationals: the fit
  computation is carried out in exact arithmetic. Division by zero yields zero
  here; statements about the fit computation take a page box with positive sides.
* A byte buffer is a total map from a byte offset to a byte value; a pointer into
  a buffer is an offset.
* The document engine (libmupdf) is not part of the repository. Its observable
  behaviour is a parameter `fz_engine`: which calls throw, what page boxes and
  pixmaps it hands back.
* Engine objects that must be released (pages, pixmaps, devices, contexts,
  documents) and the session record are tracked in a `Heap` of live resources.
* A C function either returns, or an engine error (`fz_throw`) leaves it towards the
  nearest enclosing `fz_try`; `Outcome` records which.
-/

namespace Mupdf2rgb

/-! ## Memory -/

/-- Byte memory: the byte stored at each offset. -/
abbrev Bytes := Int → Nat

/-- The assignment `m[a] = v`. -/
def store (m : Bytes) (a : Int) (v : Nat) : Bytes :=
  fun o => if o = a then v else m o

/-- The library call `memcpy(dst + d, src + s, n)`. -/
def memcpy (dst : Bytes) (d : Int) (src : Bytes) (s : Int) (n : Nat) : Bytes :=
  fun o => if d ≤ o ∧ o < d + n then src (s + (o - d)) else dst o

/-- The loop `for (i = 0; i < n; i++) body`, for a non-negative trip count `n`. -/
def forLoop {σ : Type} (n : Nat) (body : Int → σ → σ) (s : σ) : σ :=
  match n with
  | 0 => s
  | k + 1 => body (k : Int) (forLoop k body s)

/-- The C macro `min`. -/
def cmin (a b : Int) : Int := if a < b then a else b

/-- The value of an `int` operation whose mathematical result is `x`: `x` reduced
to the 32-bit two's-complement range. -/
def int32 (x : Int) : Int := (x + 2 ^ 31) % 2 ^ 32 - 2 ^ 31

/-- The conversion of an `int` to the 64-bit unsigned `size_t`. -/
def toSizeT (x : Int) : Nat := (x % 2 ^ 64).toNat

/-! ## Resources -/

/-- Kinds of objects whose lifetime is managed by hand. -/
inductive Kind where
  | record
  | context
  | document
  | page
  | pixmap
  | device
  deriving DecidableEq, Repr

/-- A managed object: its kind and its identity. -/
structure Res where
  kind : Kind
  id : Nat
  deriving DecidableEq, Repr

/-- The live managed objects, the supply of fresh identities, and the number of
releases that hit an object that was not live. -/
structure Heap where
  live : List Res
  next : Nat
  stray : Nat
  deriving DecidableEq, Repr

/-- Acquire a fresh object of kind `k`. -/
def Heap.acquire (s : Heap) (k : Kind) : Res × Heap :=
  (⟨k, s.next⟩, { s with live := ⟨k, s.next⟩ :: s.live, next := s.next + 1 })

/-- Release `r` (`fz_drop_*`, `free`). -/
def Heap.drop (s : Heap) (r : Res) : Heap :=
  if r ∈ s.live then { s with live := s.live.erase r } else { s with stray := s.stray + 1 }

/-- Release through a pointer that may be `NULL`: releasing `NULL` does nothing. -/
def Heap.dropOpt (s : Heap) (r : Option Res) : Heap :=
  match r with
  | none => s
  | some r => s.drop r

/-- How a C call ends. -/
inductive Outcome (α : Type) where
  | ret (v : α) (s : Heap)
  | throw (s : Heap)

/-- The heap a call leaves behind, however the call ends. -/
def Outcome.heap {α : Type} : Outcome α → Heap
  | .ret _ s => s
  | .throw s => s

/-! ## The document engine -/

/-- The engine type `fz_rect`. -/
structure fz_rect where
  x0 : ℚ
  y0 : ℚ
  x1 : ℚ
  y1 : ℚ

/-- The fields of the engine type `fz_pixmap` read by the wrapper: `w` and `h` are
`int` fields, `stride` is a `ptrdiff_t` field and `samples` the sample buffer. -/
structure fz_pixmap where
  w : Int
  h : Int
  stride : Int
  samples : Bytes

/-- What rasterizing one page under one scale does. -/
inductive Raster where
  /-- The call `fz_new_pixmap_with_bbox` throws: no pixmap exists. -/
  | alloc_fails
  /-- A call inside the `fz_try` block throws; `dev` tells whether the draw device
  had been created by then. -/
  | draw_fails (dev : Bool)
  /-- The page is drawn into the pixmap. -/
  | ok (pix : fz_pixmap)

/-- Observable behaviour of libmupdf on the machine and document at hand. -/
structure fz_engine where
  /-- Whether `calloc` of the session record succeeds. -/
  calloc : Bool
  /-- Whether `fz_new_context` returns a context. -/
  fz_new_context : Bool
  /-- Whether `fz_register_document_handlers` returns normally. -/
  fz_register_document_handlers : Bool
  /-- Whether `fz_open_document` returns normally on the path. -/
  fz_open_document : String → Bool
  /-- The page count of the document at the path, or `none` when
  `fz_count_pages` throws. -/
  fz_count_pages : String → Option Int
  /-- The box `fz_bound_page` reports for a page of the open document, or `none`
  when `fz_load_page` throws for that page number. -/
  fz_load_page : Int → Option fz_rect
  /-- Rasterization of a page of the open document under a uniform scale. -/
  raster : Int → ℚ → Raster

/-- A loaded page: the handle and the page number behind it. -/
structure fz_page where
  res : Res
  number : Int

/-- A pixmap pointer: the handle and the pixmap behind it. -/
structure PixmapPtr where
  res : Res
  pix : fz_pixmap

/-- The session record `struct Pdf`, with the address of the record itself. -/
structure Pdf where
  self : Res
  context : Option Res
  document : Option Res
  pageCount : Int

/-! ## Rasterization helpers (lines 21-75) -/

/-- Source function `_fz_new_pixmap_from_page_with_separations`; `ctm` is the
uniform scale of the matrix. -/
def _fz_new_pixmap_from_page_with_separations (E : fz_engine) (page : fz_page) (ctm : ℚ)
    (s : Heap) : Outcome PixmapPtr :=
  match E.raster page.number ctm with
  | .alloc_fails => .throw s
  | .draw_fails devMade =>
    let (pix, s) := s.acquire .pixmap
    -- fz_try
    let (dev, s) : Option Res × Heap :=
      if devMade then (some (s.acquire .device).1, (s.acquire .device).2) else (none, s)
    -- fz_always
    let s := s.dropOpt dev
    -- fz_catch
    .throw (s.drop pix)
  | .ok px =>
    let (pix, s) := s.acquire .pixmap
    -- fz_try
    let (dev, s) := s.acquire .device
    -- fz_always
    let s := s.dropOpt (some dev)
    .ret ⟨pix, px⟩ s

/-- Source function `_fz_new_pixmap_from_page_number_with_separations`. -/
def _fz_new_pixmap_from_page_number_with_separations (E : fz_engine) (number : Int) (ctm : ℚ)
    (s : Heap) : Outcome PixmapPtr :=
  match E.fz_load_page number with
  | none => .throw s
  | some _ =>
    let (page, s) := s.acquire .page
    match _fz_new_pixmap_from_page_with_separations E ⟨page, number⟩ ctm s with
    | .ret pix s => .ret pix (s.drop page)
    | .throw s => .throw (s.drop page)

/-! ## The fit computation (lines 138-144 and 279-285) -/

/-- The value of the local `zoomFactor` once the fit computation has run, in exact
arithmetic: fit the width, and fall back to fitting the height when the scaled
height exceeds the available height. The source computes in binary32 `float`,
whose rounding this definition leaves out: statements about equalities of scaled
sizes are statements about the exact computation only. -/
def zoomFactor (bboxWidth bboxHeight : ℚ) (availableWidth availableHeight : Int) : ℚ :=
  let zoomFactor : ℚ := availableWidth / bboxWidth
  if bboxHeight * zoomFactor > availableHeight then availableHeight / bboxHeight
  else zoomFactor

/-! ## Native-scale page (lines 86-120) -/

/-- What a rendering entry point hands back: the returned flag, the cells behind
the two size pointers (`none` for a `NULL` pointer), and the caller's buffer
(`none` for a `NULL` buffer). -/
structure Rendered where
  ret : Bool
  width : Option Int
  height : Option Int
  outBuffer : Option Bytes

/-- Source function `Pdf_getPageRGB`. -/
def Pdf_getPageRGB (E : fz_engine) (pdf : Option Pdf) (pageNumber : Int)
    (width height : Option Int) (outBuffer : Option Bytes) (s : Heap) : Outcome Rendered :=
  match pdf with
  | none => .ret ⟨false, width, height, outBuffer⟩ s
  | some _ =>
    match _fz_new_pixmap_from_page_number_with_separations E pageNumber 1 s with
    | .throw s => .ret ⟨false, width, height, outBuffer⟩ s
    | .ret pixmap s =>
      match outBuffer with
      | none =>
        .ret ⟨true, width.map (fun _ => pixmap.pix.w), height.map (fun _ => pixmap.pix.h), none⟩
          (s.drop pixmap.res)
      | some out =>
        let out := forLoop pixmap.pix.h.toNat
          (fun y out =>
            let srcLine := y * pixmap.pix.stride
            let dstLine := int32 (y * pixmap.pix.w)
            memcpy out dstLine pixmap.pix.samples srcLine (toSizeT pixmap.pix.w))
          out
        .ret ⟨true, width, height, some out⟩ (s.drop pixmap.res)

/-! ## Fitted pixmap (lines 123-163) -/

/-- What `getPagePixmap` hands back: the returned flag, the cells behind the two
size pointers, and the cell behind `outPixmap` (`none` for a `NULL` pointer). -/
structure Fitted where
  ret : Bool
  resultingWidth : Option Int
  resultingHeight : Option Int
  outPixmap : Option (Option PixmapPtr)

/-- Source function `getPagePixmap`. -/
def getPagePixmap (E : fz_engine) (pdf : Option Pdf) (pageNumber : Int)
    (availableWidth availableHeight : Int) (resultingWidth resultingHeight : Option Int)
    (outPixmap : Option (Option PixmapPtr)) (s : Heap) : Outcome Fitted :=
  if pdf.isNone || outPixmap.isNone then
    .ret ⟨false, resultingWidth, resultingHeight, outPixmap⟩ s
  else
    -- *outPixmap = NULL; fz_load_page and fz_bound_page run outside fz_try
    match E.fz_load_page pageNumber with
    | none => .throw s
    | some bbox =>
      let (page, s) := s.acquire .page
      let bboxWidth := bbox.x1 - bbox.x0
      let bboxHeight := bbox.y1 - bbox.y0
      let zoom := zoomFactor bboxWidth bboxHeight availableWidth availableHeight
      match _fz_new_pixmap_from_page_with_separations E ⟨page, pageNumber⟩ zoom s with
      | .throw s =>
        -- fz_catch: result = false
        .ret ⟨false, resultingWidth, resultingHeight, some none⟩ (s.drop page)
      | .ret pixmap s =>
        .ret ⟨true, resultingWidth.map (fun _ => pixmap.pix.w),
          resultingHeight.map (fun _ => pixmap.pix.h), some (some pixmap)⟩ (s.drop page)

/-! ## Single fitted page (lines 174-249) -/

/-- Source function `Pdf_getPageFittedRGB`. -/
def Pdf_getPageFittedRGB (E : fz_engine) (pdf : Option Pdf) (pageNumber : Int)
    (availableWidth availableHeight : Int) (resultingWidth resultingHeight : Option Int)
    (outBuffer : Option Bytes) (s : Heap) : Outcome Rendered :=
  match pdf, outBuffer with
  | none, _ => .ret ⟨false, resultingWidth, resultingHeight, outBuffer⟩ s
  | _, none => .ret ⟨false, resultingWidth, resultingHeight, outBuffer⟩ s
  | some pdf, some out =>
    match getPagePixmap E (some pdf) pageNumber availableWidth availableHeight
        resultingWidth resultingHeight (some none) s with
    | .throw s => .throw s
    | .ret r s =>
      if !r.ret then .ret ⟨false, r.resultingWidth, r.resultingHeight, some out⟩ s
      else
        match r.outPixmap with
        | some (some pixmap) =>
          let maxWidth := cmin availableWidth pixmap.pix.w
          let maxHeight := cmin availableHeight pixmap.pix.h
          let out := forLoop maxHeight.toNat
            (fun y out =>
              let srcLine := y * pixmap.pix.stride
              let dstLine := int32 (int32 (y * pixmap.pix.w) * 3)
              memcpy out dstLine pixmap.pix.samples srcLine (toSizeT (int32 (maxWidth * 3))))
            out
          .ret ⟨true, r.resultingWidth, r.resultingHeight, some out⟩ (s.drop pixmap.res)
        -- not reached: getPagePixmap returns true only with a pixmap stored
        | _ => .ret ⟨true, r.resultingWidth, r.resultingHeight, some out⟩ s

/-- The three running values of the inner BGRA loop: the `src` and `dst` pointers
and the destination buffer. -/
structure Cursor where
  src : Int
  dst : Int
  out : Bytes

/-- The body of the inner BGRA loop: one RGB pixel becomes one BGRA pixel. -/
def bgraPixel (samples : Bytes) (c : Cursor) : Cursor :=
  let out := store c.out (c.dst + 2) (samples (c.src + 0))
  let out := store out (c.dst + 1) (samples (c.src + 1))
  let out := store out (c.dst + 0) (samples (c.src + 2))
  let out := store out (c.dst + 3) 255
  ⟨c.src + 3, c.dst + 4, out⟩

/-- Source function `Pdf_getPageFittedBGRA`. -/
def Pdf_getPageFittedBGRA (E : fz_engine) (pdf : Option Pdf) (pageNumber : Int)
    (availableWidth availableHeight : Int) (resultingWidth resultingHeight : Option Int)
    (outBuffer : Option Bytes) (s : Heap) : Outcome Rendered :=
  match pdf, outBuffer with
  | none, _ => .ret ⟨false, resultingWidth, resultingHeight, outBuffer⟩ s
  | _, none => .ret ⟨false, resultingWidth, resultingHeight, outBuffer⟩ s
  | some pdf, some out =>
    match getPagePixmap E (some pdf) pageNumber availableWidth availableHeight
        resultingWidth resultingHeight (some none) s with
    | .throw s => .throw s
    | .ret r s =>
      if !r.ret then .ret ⟨false, r.resultingWidth, r.resultingHeight, some out⟩ s
      else
        match r.outPixmap with
        | some (some pixmap) =>
          let maxWidth := cmin availableWidth pixmap.pix.w
          let maxHeight := cmin availableHeight pixmap.pix.h
          let out := forLoop maxHeight.toNat
            (fun y out =>
              let src := y * pixmap.pix.stride
              let dst := int32 (int32 (y * availableWidth) * 4)
              (forLoop maxWidth.toNat (fun _ c => bgraPixel pixmap.pix.samples c)
                ⟨src, dst, out⟩).out)
            out
          .ret ⟨true, r.resultingWidth, r.resultingHeight, some out⟩ (s.drop pixmap.res)
        -- not reached: getPagePixmap returns true only with a pixmap stored
        | _ => .ret ⟨true, r.resultingWidth, r.resultingHeight, some out⟩ s

/-! ## Two fitted pages side by side (lines 264-331) -/

/-- The running values of the page loop of `Pdf_get2PagesFittedBGRA`. -/
structure Layout where
  assignedWidth : Int
  leftOffset : Int
  bottomOffset : Int
  out : Bytes

/-- One pass of the page loop of `Pdf_get2PagesFittedBGRA`, for the given `index`.
The flag is `false` when the pass leaves the function through `return false`. -/
def pagePass (E : fz_engine) (startPageNumber availableWidth availableHeight : Int)
    (index : Int) (st : Layout) (s : Heap) : Outcome (Bool × Layout) :=
  -- fz_load_page and fz_bound_page run outside fz_try
  match E.fz_load_page (startPageNumber + index) with
  | none => .throw s
  | some bbox =>
    let (page, s) := s.acquire .page
    let bboxWidth := bbox.x1 - bbox.x0
    let bboxHeight := bbox.y1 - bbox.y0
    let zoom := zoomFactor bboxWidth bboxHeight st.assignedWidth availableHeight
    match _fz_new_pixmap_from_page_with_separations E ⟨page, startPageNumber + index⟩ zoom s with
    | .throw s =>
      -- fz_catch: drop the page, return false
      .ret (false, st) (s.drop page)
    | .ret pagePixmap s =>
      let maxWidth := cmin st.assignedWidth pagePixmap.pix.w
      let maxHeight := cmin availableHeight pagePixmap.pix.h
      let out := forLoop maxHeight.toNat
        (fun y out =>
          let src := int32 (int32 (y * pagePixmap.pix.w) * 3)
          let dst := int32 (int32 (y * availableWidth) * 4) + int32 (st.leftOffset * 4)
          (forLoop maxWidth.toNat (fun _ c => bgraPixel pagePixmap.pix.samples c)
            ⟨src, dst, out⟩).out)
        st.out
      let leftOffset := st.leftOffset + pagePixmap.pix.w
      let assignedWidth := availableWidth - leftOffset
      let bottomOffset :=
        if pagePixmap.pix.h > st.bottomOffset then pagePixmap.pix.h else st.bottomOffset
      let s := s.drop pagePixmap.res
      .ret (true, ⟨assignedWidth, leftOffset, bottomOffset, out⟩) (s.drop page)

/-- The page loop `for (index = i; index < i + n; index++)` of
`Pdf_get2PagesFittedBGRA`, with `n` passes left. -/
def pageLoop (E : fz_engine) (startPageNumber availableWidth availableHeight : Int) :
    Nat → Int → Layout → Heap → Outcome (Bool × Layout)
  | 0, _, st, s => .ret (true, st) s
  | n + 1, index, st, s =>
    match pagePass E startPageNumber availableWidth availableHeight index st s with
    | .throw s => .throw s
    | .ret (false, st) s => .ret (false, st) s
    | .ret (true, st) s =>
      pageLoop E startPageNumber availableWidth availableHeight n (index + 1) st s

/-- Source function `Pdf_get2PagesFittedBGRA`. -/
def Pdf_get2PagesFittedBGRA (E : fz_engine) (pdf : Option Pdf) (startPageNumber : Int)
    (availableWidth availableHeight : Int) (resultingWidth resultingHeight : Option Int)
    (outBuffer : Option Bytes) (s : Heap) : Outcome Rendered :=
  match pdf, outBuffer with
  | none, _ => .ret ⟨false, resultingWidth, resultingHeight, outBuffer⟩ s
  | _, none => .ret ⟨false, resultingWidth, resultingHeight, outBuffer⟩ s
  | some _, some out =>
    let assignedWidth := Int.tdiv availableWidth 2
    match pageLoop E startPageNumber availableWidth availableHeight 2 0
        ⟨assignedWidth, 0, 0, out⟩ s with
    | .throw s => .throw s
    | .ret (false, st) s => .ret ⟨false, resultingWidth, resultingHeight, some st.out⟩ s
    | .ret (true, st) s =>
      .ret ⟨true, resultingWidth.map (fun _ => st.leftOffset),
        resultingHeight.map (fun _ => st.bottomOffset), some st.out⟩ s

/-! ## Session (lines 333-386) -/

/-- Source function `Pdf_destroy`. -/
def Pdf_destroy (pdf : Option Pdf) (s : Heap) : Bool × Heap :=
  match pdf with
  | none => (false, s)
  | some pdf =>
    let s := s.dropOpt pdf.document
    let s := s.dropOpt pdf.context
    (false, s.drop pdf.self)

/-- What `Pdf_create` hands back: the returned flag and the cell behind `newPdf`
(`none` for a `NULL` pointer). -/
structure Created where
  ret : Bool
  newPdf : Option (Option Pdf)

/-- The label `error:` of `Pdf_create`: `return Pdf_destroy(pdf)`, the cell behind
`newPdf` holding `NULL`. -/
def createError (pdf : Option Pdf) (s : Heap) : Created × Heap :=
  (⟨(Pdf_destroy pdf s).1, some none⟩, (Pdf_destroy pdf s).2)

/-- Source function `Pdf_create`. -/
def Pdf_create (E : fz_engine) (newPdf : Option (Option Pdf)) (filePath : Option String)
    (s : Heap) : Created × Heap :=
  match newPdf, filePath with
  | none, _ => (⟨false, none⟩, s)
  | some cell, none => (⟨false, some cell⟩, s)
  | some _, some path =>
    -- *newPdf = NULL
    if !E.calloc then
      createError none s
    else
      let (self, s) := s.acquire .record
      let pdf : Pdf := ⟨self, none, none, 0⟩
      if !E.fz_new_context then
        createError (some pdf) s
      else
        let (context, s) := s.acquire .context
        let pdf : Pdf := { pdf with context := some context }
        if !E.fz_register_document_handlers then
          createError (some pdf) s
        else if !E.fz_open_document path then
          createError (some pdf) s
        else
          let (document, s) := s.acquire .document
          let pdf : Pdf := { pdf with document := some document }
          match E.fz_count_pages path with
          | none =>
            createError (some pdf) s
          | some n => (⟨true, some (some { pdf with pageCount := n })⟩, s)

/-! ## Sample inputs -/

/-- A 2×2 pixmap whose rows carry one byte of padding (stride 7) and whose sample
at offset `o` is `o`. -/
def paddedPixmap : fz_pixmap := ⟨2, 2, 7, fun o => o.toNat⟩

/-- An engine on a two-page document of 2×2 pages: every call succeeds and every
rasterization yields `paddedPixmap`; page numbers outside 0 and 1 make
`fz_load_page` throw. -/
def paddedEngine : fz_engine where
  calloc := true
  fz_new_context := true
  fz_register_document_handlers := true
  fz_open_document := fun _ => true
  fz_count_pages := fun _ => some 2
  fz_load_page := fun n => if n = 0 ∨ n = 1 then some ⟨0, 0, 2, 2⟩ else none
  raster := fun _ _ => .ok paddedPixmap

/-- An open session on a heap holding its record, context and document. -/
def openPdf : Pdf := ⟨⟨.record, 0⟩, some ⟨.context, 1⟩, some ⟨.document, 2⟩, 2⟩

/-- The heap of `openPdf`. -/
def openHeap : Heap := ⟨[⟨.document, 2⟩, ⟨.context, 1⟩, ⟨.record, 0⟩], 3, 0⟩

/-- A tightly packed 2×2 pixmap (stride 6) whose sample at offset `o` is `o`. -/
def tightPixmap : fz_pixmap := ⟨2, 2, 6, fun o => o.toNat⟩

/-- The engine `paddedEngine`, with every rasterization yielding `tightPixmap`. -/
def tightEngine : fz_engine := { paddedEngine with raster := fun _ _ => .ok tightPixmap }

/-- The first `n` bytes of a buffer. -/
def firstBytes (n : Nat) (m : Bytes) : List Nat := (List.range n).map (fun i => m (i : Int))

/-- A pixmap one pixel wide and two pixels high with the given stride, whose sample
at offset `o` is `o + 10`. -/
def narrowPixmap (stride : Int) : fz_pixmap := ⟨1, 2, stride, fun o => o.toNat + 10⟩

/-- An engine on a two-page document of 1×2 pages whose every rasterization yields
`narrowPixmap stride`. -/
def narrowEngine (stride : Int) : fz_engine :=
  { paddedEngine with
    fz_load_page := fun n => if n = 0 ∨ n = 1 then some ⟨0, 0, 1, 2⟩ else none
    raster := fun _ _ => .ok (narrowPixmap stride) }

/-- An engine on a document of 612×792 pages: the pixmap for a scale is the scaled
page box rounded up to whole pixels, tightly packed and white. -/
def letterEngine : fz_engine :=
  { paddedEngine with
    fz_load_page := fun _ => some ⟨0, 0, 612, 792⟩
    raster := fun _ z => .ok ⟨⌈612 * z⌉, ⌈792 * z⌉, 3 * ⌈612 * z⌉, fun _ => 255⟩ }

/-- The pixmap of a 612×792 page at scale 400/612: 400×518 pixels. -/
def letterHalfPixmap : fz_pixmap := ⟨400, 518, 1200, fun _ => 255⟩

/-! ## Closed forms used in the proofs -/

/-- The effect of `n` passes of the inner BGRA loop, in closed form. -/
def bgraRow (samples : Bytes) (src dst : Int) (n : Nat) (out : Bytes) : Bytes :=
  fun o =>
    if dst ≤ o ∧ o < dst + 4 * n then
      if (o - dst) % 4 = 3 then 255
      else samples (src + 3 * ((o - dst) / 4) + (2 - (o - dst) % 4))
    else out o

/-- The row loop of the BGRA compositors: row `y` reads from `srcOf y` and writes
`n` pixels from byte offset `dstOf y`. -/
def bgraRowsGen (samples : Bytes) (srcOf dstOf : Int → Int) (n m : Nat) (out : Bytes) :
    Bytes :=
  forLoop m
    (fun y out => (forLoop n (fun _ c => bgraPixel samples c) ⟨srcOf y, dstOf y, out⟩).out)
    out

/-- The row loop of the BGRA compositors when no offset leaves the `int` range:
row `y` reads from `srcOf y` and writes `n` pixels from byte offset
`y * A * 4 + L * 4`. -/
def bgraRows (samples : Bytes) (srcOf : Int → Int) (A L : Int) (n m : Nat) (out : Bytes) :
    Bytes :=
  forLoop m
    (fun y out =>
      (forLoop n (fun _ c => bgraPixel samples c) ⟨srcOf y, y * A * 4 + L * 4, out⟩).out)
    out

/-- Two heaps with the same live objects and the same count of stray releases. -/
def Heap.same (a b : Heap) : Prop := a.live = b.live ∧ a.stray = b.stray

/-! ## Loop lemmas -/

theorem cmin_eq_min (a b : Int) : cmin a b = min a b := by
  unfold cmin
  split
  · rw [min_eq_left (le_of_lt ‹a < b›)]
  · rw [min_eq_right (not_lt.mp ‹¬ a < b›)]

theorem forLoop_succ {σ : Type} (n : Nat) (body : Int → σ → σ) (s : σ) :
    forLoop (n + 1) body s = body (n : Int) (forLoop n body s) := rfl

theorem forLoop_zero {σ : Type} (body : Int → σ → σ) (s : σ) : forLoop 0 body s = s := rfl

theorem forLoop_bgraPixel (samples : Bytes) (src dst : Int) (out : Bytes) (n : Nat) :
    forLoop n (fun _ c => bgraPixel samples c) ⟨src, dst, out⟩
      = ⟨src + 3 * n, dst + 4 * n, bgraRow samples src dst n out⟩ := by
  induction n with
  | zero =>
    rw [forLoop_zero]
    congr 1
    · simp
    · simp
    · funext o
      have : ¬ (dst ≤ o ∧ o < dst + 4 * ((0 : Nat) : Int)) := by omega
      simp only [bgraRow, this, if_false]
  | succ k ih =>
    rw [forLoop_succ, ih]
    simp only [bgraPixel]
    congr 1
    · push_cast; ring
    · push_cast; ring
    · funext o
      simp only [store, bgraRow]
      push_cast
      by_cases h3 : o = dst + 4 * (k : Int) + 3
      · subst h3
        have e1 : (dst + 4 * (k : Int) + 3 - dst) % 4 = 3 := by omega
        have e2 : dst ≤ dst + 4 * (k : Int) + 3 ∧
            dst + 4 * (k : Int) + 3 < dst + 4 * ((k : Int) + 1) := by omega
        simp only [e1, e2, if_true, and_self]
      · by_cases h0 : o = dst + 4 * (k : Int) + 0
        · subst h0
          have e1 : (dst + 4 * (k : Int) + 0 - dst) % 4 = 0 := by omega
          have e3 : (dst + 4 * (k : Int) + 0 - dst) / 4 = k := by omega
          have e2 : dst ≤ dst + 4 * (k : Int) + 0 ∧
              dst + 4 * (k : Int) + 0 < dst + 4 * ((k : Int) + 1) := by omega
          simp only [e1, e2, e3, if_true, h3, if_false, and_self]
          simp
        · by_cases h1 : o = dst + 4 * (k : Int) + 1
          · subst h1
            have e1 : (dst + 4 * (k : Int) + 1 - dst) % 4 = 1 := by omega
            have e3 : (dst + 4 * (k : Int) + 1 - dst) / 4 = k := by omega
            have e2 : dst ≤ dst + 4 * (k : Int) + 1 ∧
                dst + 4 * (k : Int) + 1 < dst + 4 * ((k : Int) + 1) := by omega
            simp only [e1, e2, e3, if_true, h3, h0, if_false, and_self]
            simp
          · by_cases h2 : o = dst + 4 * (k : Int) + 2
            · subst h2
              have e1 : (dst + 4 * (k : Int) + 2 - dst) % 4 = 2 := by omega
              have e3 : (dst + 4 * (k : Int) + 2 - dst) / 4 = k := by omega
              have e2 : dst ≤ dst + 4 * (k : Int) + 2 ∧
                  dst + 4 * (k : Int) + 2 < dst + 4 * ((k : Int) + 1) := by omega
              simp only [e1, e2, e3, if_true, h3, h0, h1, if_false, and_self]
              simp
            · simp only [h3, h0, h1, h2, if_false]
              by_cases hin : dst ≤ o ∧ o < dst + 4 * (k : Int)
              · have hin2 : dst ≤ o ∧ o < dst + 4 * ((k : Int) + 1) := by omega
                simp only [hin, hin2, and_self, if_true]
              · have hin2 : ¬ (dst ≤ o ∧ o < dst + 4 * ((k : Int) + 1)) := by omega
                simp only [hin, hin2, if_false]

theorem bgraRow_at (samples : Bytes) (src dst : Int) (n : Nat) (out : Bytes) (x k : Nat)
    (hx : x < n) (hk : k < 4) :
    bgraRow samples src dst n out (dst + 4 * x + k)
      = if k = 3 then 255 else samples (src + 3 * x + (2 - k)) := by
  have e1 : (dst + 4 * (x : Int) + (k : Int) - dst) % 4 = k := by omega
  have e3 : (dst + 4 * (x : Int) + (k : Int) - dst) / 4 = x := by omega
  have e2 : dst ≤ dst + 4 * (x : Int) + (k : Int) ∧
      dst + 4 * (x : Int) + (k : Int) < dst + 4 * (n : Int) := by omega
  simp only [bgraRow, e1, e2, e3, and_self, if_true]
  by_cases h : k = 3
  · subst h; simp
  · have : ¬ ((k : Int) = 3) := by omega
    simp only [h, this, if_false]

theorem bgraRow_frame (samples : Bytes) (src dst : Int) (n : Nat) (out : Bytes) (o : Int)
    (h : ¬ (dst ≤ o ∧ o < dst + 4 * n)) :
    bgraRow samples src dst n out o = out o := by
  simp only [bgraRow, h, if_false]

theorem int32_eq_self (x : Int) (hlo : -(2 ^ 31) ≤ x) (hhi : x < 2 ^ 31) : int32 x = x := by
  unfold int32
  omega

/-- The offset of a row of an `A`-pixel pitch, computed in `int`, is the
mathematical one when the `A*H*4` bytes of the buffer fit the `int` range. -/
theorem row_offset_fits (A H : Int) (y : Nat) (hA : 0 ≤ A) (hy : (y : Int) < H)
    (hsize : A * H * 4 < 2 ^ 31) : int32 (int32 (y * A) * 4) = y * A * 4 := by
  have h1 : ((y : Int) + 1) * A ≤ H * A := mul_le_mul_of_nonneg_right (by omega) hA
  have h2 : ((y : Int) + 1) * A = (y : Int) * A + A := by ring
  have h3 : A * H = H * A := mul_comm A H
  have h4 : 0 ≤ (y : Int) * A := mul_nonneg (by omega) hA
  rw [int32_eq_self ((y : Int) * A) (by omega) (by omega)]
  exact int32_eq_self _ (by omega) (by omega)

theorem bgraRowsGen_succ (samples : Bytes) (srcOf dstOf : Int → Int) (n m : Nat)
    (out : Bytes) :
    bgraRowsGen samples srcOf dstOf n (m + 1) out
      = bgraRow samples (srcOf m) (dstOf m) n (bgraRowsGen samples srcOf dstOf n m out) := by
  unfold bgraRowsGen
  rw [forLoop_succ, forLoop_bgraPixel]

/-- Rows whose source and destination offsets agree give the same buffer. -/
theorem bgraRowsGen_congr (samples : Bytes) (srcOf srcOf1 dstOf dstOf1 : Int → Int) (n m : Nat)
    (out : Bytes) (hs : ∀ y : Nat, y < m → srcOf y = srcOf1 y)
    (hd : ∀ y : Nat, y < m → dstOf y = dstOf1 y) :
    bgraRowsGen samples srcOf dstOf n m out = bgraRowsGen samples srcOf1 dstOf1 n m out := by
  induction m with
  | zero => rfl
  | succ j ih =>
    rw [bgraRowsGen_succ, bgraRowsGen_succ, hs j (Nat.lt_succ_self j), hd j (Nat.lt_succ_self j),
      ih (fun y hy => hs y (Nat.lt_succ_of_lt hy)) (fun y hy => hd y (Nat.lt_succ_of_lt hy))]

/-- Bytes outside every row span are left as they were. -/
theorem bgraRowsGen_frame (samples : Bytes) (srcOf dstOf : Int → Int) (n m : Nat)
    (out : Bytes) (o : Int)
    (h : ∀ y : Nat, y < m → ¬ (dstOf y ≤ o ∧ o < dstOf y + 4 * n)) :
    bgraRowsGen samples srcOf dstOf n m out o = out o := by
  induction m with
  | zero => rfl
  | succ j ih =>
    rw [bgraRowsGen_succ, bgraRow_frame _ _ _ _ _ _ (h j (Nat.lt_succ_self j))]
    exact ih (fun y hy => h y (Nat.lt_succ_of_lt hy))

/-- A byte whose value the row loop changes lies in the span of one of its rows. -/
theorem bgraRowsGen_changed (samples : Bytes) (srcOf dstOf : Int → Int) (n m : Nat)
    (out : Bytes) (o : Int) (h : bgraRowsGen samples srcOf dstOf n m out o ≠ out o) :
    ∃ y : Nat, y < m ∧ dstOf y ≤ o ∧ o < dstOf y + 4 * n := by
  by_contra hno
  apply h
  apply bgraRowsGen_frame
  intro y hy hspan
  exact hno ⟨y, hy, hspan⟩

theorem bgraRows_eq_gen (samples : Bytes) (srcOf : Int → Int) (A L : Int) (n m : Nat)
    (out : Bytes) :
    bgraRows samples srcOf A L n m out
      = bgraRowsGen samples srcOf (fun y => y * A * 4 + L * 4) n m out := rfl

theorem bgraRows_succ (samples : Bytes) (srcOf : Int → Int) (A L : Int) (n m : Nat)
    (out : Bytes) :
    bgraRows samples srcOf A L n (m + 1) out
      = bgraRow samples (srcOf m) (m * A * 4 + L * 4) n (bgraRows samples srcOf A L n m out) := by
  unfold bgraRows
  rw [forLoop_succ, forLoop_bgraPixel]

/-- Bytes outside every row span are left as they were. -/
theorem bgraRows_frame (samples : Bytes) (srcOf : Int → Int) (A L : Int) (n m : Nat)
    (out : Bytes) (o : Int)
    (h : ∀ y : Nat, y < m → ¬ (y * A * 4 + L * 4 ≤ o ∧ o < y * A * 4 + L * 4 + 4 * n)) :
    bgraRows samples srcOf A L n m out o = out o := by
  induction m with
  | zero => rfl
  | succ j ih =>
    rw [bgraRows_succ, bgraRow_frame _ _ _ _ _ _ (h j (Nat.lt_succ_self j))]
    exact ih (fun y hy => h y (Nat.lt_succ_of_lt hy))

/-- The pixel at column `L + x` of row `y` after the row loop, when the `n` columns
written per row fit within the row pitch `A`. -/
theorem bgraRows_at (samples : Bytes) (srcOf : Int → Int) (A L : Int) (n m : Nat)
    (out : Bytes) (hL : 0 ≤ L) (hn : L + n ≤ A) (x y k : Nat)
    (hx : x < n) (hy : y < m) (hk : k < 4) :
    bgraRows samples srcOf A L n m out ((y * A + L + x) * 4 + k)
      = if k = 3 then 255 else samples (srcOf y + 3 * x + (2 - k)) := by
  induction m with
  | zero => omega
  | succ j ih =>
    rw [bgraRows_succ]
    by_cases hyj : y = j
    · subst hyj
      have e : ((y : Int) * A + L + x) * 4 + k = (y : Int) * A * 4 + L * 4 + 4 * x + k := by ring
      rw [e, bgraRow_at _ _ _ _ _ _ _ hx hk]
    · have hlt : y < j := by omega
      have h1 : ((y : Int) + 1) * A ≤ (j : Int) * A := by
        apply mul_le_mul_of_nonneg_right _ (by omega)
        omega
      have h2 : ((y : Int) + 1) * A = (y : Int) * A + A := by ring
      rw [bgraRow_frame _ _ _ _ _ _ (by omega)]
      exact ih hlt

/-! ## Single fitted page: what the calls compute -/

theorem getPagePixmap_ok (E : fz_engine) (pdf : Pdf) (pageNumber A H : Int)
    (rw rh : Option Int) (cell : Option PixmapPtr) (s : Heap) (bbox : fz_rect) (p : fz_pixmap)
    (hload : E.fz_load_page pageNumber = some bbox)
    (hras : E.raster pageNumber (zoomFactor (bbox.x1 - bbox.x0) (bbox.y1 - bbox.y0) A H)
      = Raster.ok p) :
    ∃ r s1, getPagePixmap E (some pdf) pageNumber A H rw rh (some cell) s = .ret r s1 ∧
      r.ret = true ∧ r.resultingWidth = rw.map (fun _ => p.w) ∧
      r.resultingHeight = rh.map (fun _ => p.h) ∧
      ∃ res, r.outPixmap = some (some ⟨res, p⟩) := by
  simp [getPagePixmap, hload, Heap.acquire, _fz_new_pixmap_from_page_with_separations, hras]

theorem Pdf_getPageFittedBGRA_ok (E : fz_engine) (pdf : Pdf) (pageNumber A H : Int)
    (rw rh : Option Int) (out : Bytes) (s : Heap) (bbox : fz_rect) (p : fz_pixmap)
    (hload : E.fz_load_page pageNumber = some bbox)
    (hras : E.raster pageNumber (zoomFactor (bbox.x1 - bbox.x0) (bbox.y1 - bbox.y0) A H)
      = Raster.ok p) :
    ∃ s1, Pdf_getPageFittedBGRA E (some pdf) pageNumber A H rw rh (some out) s
      = .ret ⟨true, rw.map (fun _ => p.w), rh.map (fun _ => p.h),
          some (bgraRowsGen p.samples (fun y => y * p.stride)
            (fun y => int32 (int32 (y * A) * 4)) (cmin A p.w).toNat
            (cmin H p.h).toNat out)⟩ s1 := by
  obtain ⟨r, s1, hcall, hret, hw, hh, res, hpix⟩ :=
    getPagePixmap_ok E pdf pageNumber A H rw rh none s bbox p hload hras
  refine ⟨s1.drop res, ?_⟩
  simp only [Pdf_getPageFittedBGRA, hcall, hret, hpix, hw, hh, Bool.not_true, Bool.false_eq_true,
    if_false, bgraRowsGen]

/-! ## The fit computation: which branch is taken -/

theorem zoomFactor_height_binds (w h : ℚ) (W H : Int) (hc : h * ((W : ℚ) / w) > H) :
    zoomFactor w h W H = (H : ℚ) / h := by
  simp only [zoomFactor, hc, if_true]

theorem zoomFactor_width_binds (w h : ℚ) (W H : Int) (hc : ¬ h * ((W : ℚ) / w) > H) :
    zoomFactor w h W H = (W : ℚ) / w := by
  simp only [zoomFactor, hc, if_false]

theorem scaled_height_gt_iff (w h : ℚ) (W H : Int) (hw : 0 < w) :
    h * ((W : ℚ) / w) > H ↔ (H : ℚ) * w < h * W := by
  rw [gt_iff_lt, ← mul_div_assoc, lt_div_iff₀ hw]

/-! ## Two fitted pages: what one pass computes -/

theorem pagePass_ok (E : fz_engine) (start A H index : Int) (st : Layout) (s : Heap)
    (bbox : fz_rect) (p : fz_pixmap)
    (hload : E.fz_load_page (start + index) = some bbox)
    (hras : E.raster (start + index)
      (zoomFactor (bbox.x1 - bbox.x0) (bbox.y1 - bbox.y0) st.assignedWidth H) = Raster.ok p) :
    ∃ s1, pagePass E start A H index st s
      = .ret (true, ⟨A - (st.leftOffset + p.w), st.leftOffset + p.w,
          if p.h > st.bottomOffset then p.h else st.bottomOffset,
          bgraRowsGen p.samples (fun y => int32 (int32 (y * p.w) * 3))
            (fun y => int32 (int32 (y * A) * 4) + int32 (st.leftOffset * 4))
            (cmin st.assignedWidth p.w).toNat (cmin H p.h).toNat st.out⟩) s1 := by
  simp [pagePass, hload, Heap.acquire, _fz_new_pixmap_from_page_with_separations, hras,
    bgraRowsGen]

theorem Pdf_get2PagesFittedBGRA_ok (E : fz_engine) (pdf : Pdf) (start A H : Int)
    (rw rh : Option Int) (out : Bytes) (s : Heap) (bbox0 bbox1 : fz_rect) (p0 p1 : fz_pixmap)
    (hload0 : E.fz_load_page start = some bbox0)
    (hras0 : E.raster start
      (zoomFactor (bbox0.x1 - bbox0.x0) (bbox0.y1 - bbox0.y0) (Int.tdiv A 2) H) = Raster.ok p0)
    (hload1 : E.fz_load_page (start + 1) = some bbox1)
    (hras1 : E.raster (start + 1)
      (zoomFactor (bbox1.x1 - bbox1.x0) (bbox1.y1 - bbox1.y0) (A - p0.w) H) = Raster.ok p1) :
    ∃ s1, Pdf_get2PagesFittedBGRA E (some pdf) start A H rw rh (some out) s
      = .ret ⟨true, rw.map (fun _ => p0.w + p1.w),
          rh.map (fun _ => if p1.h > (if p0.h > 0 then p0.h else 0) then p1.h
            else (if p0.h > 0 then p0.h else 0)),
          some (bgraRowsGen p1.samples (fun y => int32 (int32 (y * p1.w) * 3))
            (fun y => int32 (int32 (y * A) * 4) + int32 (p0.w * 4))
            (cmin (A - p0.w) p1.w).toNat (cmin H p1.h).toNat
            (bgraRowsGen p0.samples (fun y => int32 (int32 (y * p0.w) * 3))
              (fun y => int32 (int32 (y * A) * 4) + int32 (0 * 4))
              (cmin (Int.tdiv A 2) p0.w).toNat (cmin H p0.h).toNat out))⟩ s1 := by
  obtain ⟨s1, h0⟩ := pagePass_ok E start A H 0 ⟨Int.tdiv A 2, 0, 0, out⟩ s bbox0 p0
    (by simpa using hload0) (by simpa using hras0)
  obtain ⟨s2, h1⟩ := pagePass_ok E start A H (0 + 1)
    ⟨A - (0 + p0.w), 0 + p0.w, if p0.h > 0 then p0.h else 0,
      bgraRowsGen p0.samples (fun y => int32 (int32 (y * p0.w) * 3))
        (fun y => int32 (int32 (y * A) * 4) + int32 (0 * 4))
        (cmin (Int.tdiv A 2) p0.w).toNat (cmin H p0.h).toNat out⟩ s1 bbox1 p1
    (by simpa using hload1) (by simpa using hras1)
  refine ⟨s2, ?_⟩
  simp only [zero_add] at h0 h1
  simp only [Pdf_get2PagesFittedBGRA, pageLoop, h0, h1, zero_add]

/-! ## Resource accounting -/

theorem Heap.same_refl (a : Heap) : a.same a := ⟨rfl, rfl⟩

/-- Rasterizing a page either throws with the heap as it was, or returns a fresh
pixmap as the only new live object. -/
theorem new_pixmap_from_page_heap (E : fz_engine) (page : fz_page) (ctm : ℚ) (s : Heap) :
    (∃ s1, _fz_new_pixmap_from_page_with_separations E page ctm s = .throw s1 ∧ s1.same s) ∨
    (∃ p s1, _fz_new_pixmap_from_page_with_separations E page ctm s
        = .ret ⟨⟨.pixmap, s.next⟩, p⟩ s1 ∧
      s1.live = ⟨.pixmap, s.next⟩ :: s.live ∧ s1.stray = s.stray) := by
  unfold _fz_new_pixmap_from_page_with_separations
  cases h : E.raster page.number ctm with
  | alloc_fails => exact Or.inl ⟨s, rfl, s.same_refl⟩
  | draw_fails dev =>
    left
    cases dev <;> simp [Heap.acquire, Heap.drop, Heap.dropOpt, Heap.same]
  | ok p =>
    right
    refine ⟨p, ⟨⟨.pixmap, s.next⟩ :: s.live, s.next + 1 + 1, s.stray⟩, ?_, rfl, rfl⟩
    simp [Heap.acquire, Heap.drop, Heap.dropOpt]

theorem Heap.same_trans {a b c : Heap} (h1 : a.same b) (h2 : b.same c) : a.same c :=
  ⟨h1.1.trans h2.1, h1.2.trans h2.2⟩

theorem Heap.drop_head (s : Heap) (r : Res) (l : List Res) (h : s.live = r :: l) :
    (s.drop r).live = l ∧ (s.drop r).stray = s.stray := by
  simp [Heap.drop, h]

theorem Heap.drop_second (s : Heap) (a r : Res) (l : List Res) (h : s.live = a :: r :: l)
    (hne : a ≠ r) :
    (s.drop r).live = a :: l ∧ (s.drop r).stray = s.stray := by
  have hne2 : ¬ (a == r) = true := by simpa using hne
  simp [Heap.drop, h, List.erase_cons, hne2]

theorem Heap.drop_same (s s0 : Heap) (r : Res) (h : s.live = r :: s0.live)
    (hs : s.stray = s0.stray) : (s.drop r).same s0 :=
  ⟨(s.drop_head r s0.live h).1, (s.drop_head r s0.live h).2.trans hs⟩

/-- The page acquired by a call is released by it; on success the pixmap is the one
new live object. -/
theorem getPagePixmap_heap (E : fz_engine) (pdf : Option Pdf) (pageNumber A H : Int)
    (rw rh : Option Int) (cell : Option (Option PixmapPtr)) (s : Heap) :
    (∃ s1, getPagePixmap E pdf pageNumber A H rw rh cell s = .throw s1 ∧ s1.same s) ∨
    (∃ r s1, getPagePixmap E pdf pageNumber A H rw rh cell s = .ret r s1 ∧ r.ret = false ∧
      s1.same s) ∨
    (∃ r s1 res p, getPagePixmap E pdf pageNumber A H rw rh cell s = .ret r s1 ∧
      r.ret = true ∧ r.outPixmap = some (some ⟨res, p⟩) ∧
      s1.live = res :: s.live ∧ s1.stray = s.stray) := by
  unfold getPagePixmap
  by_cases hnull : (pdf.isNone || cell.isNone) = true
  · simp only [hnull, if_true]
    exact Or.inr (Or.inl ⟨_, _, rfl, rfl, s.same_refl⟩)
  · simp only [hnull, if_false]
    cases hl : E.fz_load_page pageNumber with
    | none => exact Or.inl ⟨s, rfl, s.same_refl⟩
    | some bbox =>
      simp only [Heap.acquire]
      rcases new_pixmap_from_page_heap E ⟨⟨.page, s.next⟩, pageNumber⟩
        (zoomFactor (bbox.x1 - bbox.x0) (bbox.y1 - bbox.y0) A H)
        ⟨⟨.page, s.next⟩ :: s.live, s.next + 1, s.stray⟩ with ⟨s1, h1, hs⟩ | ⟨p, s1, h1, hl1, hs1⟩
      · rw [h1]
        exact Or.inr (Or.inl ⟨_, _, rfl, rfl, Heap.drop_same s1 s _ hs.1 hs.2⟩)
      · rw [h1]
        have hd := Heap.drop_second s1 _ _ s.live hl1 (by simp)
        exact Or.inr (Or.inr ⟨_, _, _, p, rfl, rfl, rfl, hd.1, hd.2.trans hs1⟩)

theorem Pdf_getPageRGB_heap (E : fz_engine) (pdf : Option Pdf) (pageNumber : Int)
    (width height : Option Int) (outBuffer : Option Bytes) (s : Heap) :
    (Pdf_getPageRGB E pdf pageNumber width height outBuffer s).heap.same s := by
  unfold Pdf_getPageRGB
  cases pdf with
  | none => exact s.same_refl
  | some pdf =>
    simp only [_fz_new_pixmap_from_page_number_with_separations]
    cases hl : E.fz_load_page pageNumber with
    | none => exact s.same_refl
    | some bbox =>
      simp only [Heap.acquire]
      rcases new_pixmap_from_page_heap E ⟨⟨.page, s.next⟩, pageNumber⟩ 1
        ⟨⟨.page, s.next⟩ :: s.live, s.next + 1, s.stray⟩ with ⟨s1, h1, hs⟩ | ⟨p, s1, h1, hl1, hs1⟩
      · rw [h1]
        exact Heap.drop_same s1 s _ hs.1 hs.2
      · rw [h1]
        have hd := Heap.drop_second s1 _ _ s.live hl1 (by simp)
        cases outBuffer with
        | none => exact Heap.drop_same _ s _ hd.1 (hd.2.trans hs1)
        | some out => exact Heap.drop_same _ s _ hd.1 (hd.2.trans hs1)

theorem Pdf_getPageFittedRGB_heap (E : fz_engine) (pdf : Option Pdf) (pageNumber A H : Int)
    (rw rh : Option Int) (outBuffer : Option Bytes) (s : Heap) :
    (Pdf_getPageFittedRGB E pdf pageNumber A H rw rh outBuffer s).heap.same s := by
  unfold Pdf_getPageFittedRGB
  cases pdf with
  | none => cases outBuffer <;> exact s.same_refl
  | some pdf =>
    cases outBuffer with
    | none => exact s.same_refl
    | some out =>
      rcases getPagePixmap_heap E (some pdf) pageNumber A H rw rh (some none) s with
        ⟨s1, h1, hs⟩ | ⟨r, s1, h1, hr, hs⟩ | ⟨r, s1, res, p, h1, hr, hp, hl1, hs1⟩
      · simp only [h1]; exact hs
      · simp only [h1, hr]; exact hs
      · simp only [h1, hr, hp]
        exact Heap.drop_same s1 s _ hl1 hs1

theorem Pdf_getPageFittedBGRA_heap (E : fz_engine) (pdf : Option Pdf) (pageNumber A H : Int)
    (rw rh : Option Int) (outBuffer : Option Bytes) (s : Heap) :
    (Pdf_getPageFittedBGRA E pdf pageNumber A H rw rh outBuffer s).heap.same s := by
  unfold Pdf_getPageFittedBGRA
  cases pdf with
  | none => cases outBuffer <;> exact s.same_refl
  | some pdf =>
    cases outBuffer with
    | none => exact s.same_refl
    | some out =>
      rcases getPagePixmap_heap E (some pdf) pageNumber A H rw rh (some none) s with
        ⟨s1, h1, hs⟩ | ⟨r, s1, h1, hr, hs⟩ | ⟨r, s1, res, p, h1, hr, hp, hl1, hs1⟩
      · simp only [h1]; exact hs
      · simp only [h1, hr]; exact hs
      · simp only [h1, hr, hp]
        exact Heap.drop_same s1 s _ hl1 hs1

theorem pagePass_heap (E : fz_engine) (start A H index : Int) (st : Layout) (s : Heap) :
    (pagePass E start A H index st s).heap.same s := by
  unfold pagePass
  cases hl : E.fz_load_page (start + index) with
  | none => exact s.same_refl
  | some bbox =>
    simp only [Heap.acquire]
    rcases new_pixmap_from_page_heap E ⟨⟨.page, s.next⟩, start + index⟩
      (zoomFactor (bbox.x1 - bbox.x0) (bbox.y1 - bbox.y0) st.assignedWidth H)
      ⟨⟨.page, s.next⟩ :: s.live, s.next + 1, s.stray⟩ with ⟨s1, h1, hs⟩ | ⟨p, s1, h1, hl1, hs1⟩
    · rw [h1]
      exact Heap.drop_same s1 s _ hs.1 hs.2
    · rw [h1]
      have hd := Heap.drop_head s1 _ _ hl1
      exact Heap.drop_same _ s _ hd.1 (hd.2.trans hs1)

theorem pageLoop_heap (E : fz_engine) (start A H : Int) (n : Nat) (index : Int) (st : Layout)
    (s : Heap) : (pageLoop E start A H n index st s).heap.same s := by
  induction n generalizing index st s with
  | zero => exact s.same_refl
  | succ k ih =>
    unfold pageLoop
    have hp := pagePass_heap E start A H index st s
    cases hpass : pagePass E start A H index st s with
    | throw s1 => rw [hpass] at hp; exact hp
    | ret v s1 =>
      rw [hpass] at hp
      obtain ⟨ok, st1⟩ := v
      cases ok with
      | false => exact hp
      | true => exact Heap.same_trans (ih (index + 1) st1 s1) hp

theorem Pdf_get2PagesFittedBGRA_heap (E : fz_engine) (pdf : Option Pdf) (start A H : Int)
    (rw rh : Option Int) (outBuffer : Option Bytes) (s : Heap) :
    (Pdf_get2PagesFittedBGRA E pdf start A H rw rh outBuffer s).heap.same s := by
  unfold Pdf_get2PagesFittedBGRA
  cases pdf with
  | none => cases outBuffer <;> exact s.same_refl
  | some pdf =>
    cases outBuffer with
    | none => exact s.same_refl
    | some out =>
      have hp := pageLoop_heap E start A H 2 0 ⟨Int.tdiv A 2, 0, 0, out⟩ s
      cases hloop : pageLoop E start A H 2 0 ⟨Int.tdiv A 2, 0, 0, out⟩ s with
      | throw s1 => rw [hloop] at hp; simp only [hloop]; exact hp
      | ret v s1 =>
        rw [hloop] at hp
        obtain ⟨ok, st1⟩ := v
        cases ok with
        | false => simp only [hloop]; exact hp
        | true => simp only [hloop]; exact hp

/-! ## Engine errors inside and outside `fz_try` -/

/-- A rasterization that throws makes `getPagePixmap` return `false`. -/
theorem getPagePixmap_raster_failure (E : fz_engine) (pdf : Pdf) (pageNumber A H : Int)
    (rw rh : Option Int) (cell : Option PixmapPtr) (s : Heap) (bbox : fz_rect)
    (hload : E.fz_load_page pageNumber = some bbox)
    (hras : ∀ p, E.raster pageNumber
      (zoomFactor (bbox.x1 - bbox.x0) (bbox.y1 - bbox.y0) A H) ≠ Raster.ok p) :
    ∃ s1, getPagePixmap E (some pdf) pageNumber A H rw rh (some cell) s
      = .ret ⟨false, rw, rh, some none⟩ s1 := by
  cases hr : E.raster pageNumber (zoomFactor (bbox.x1 - bbox.x0) (bbox.y1 - bbox.y0) A H) with
  | ok p => exact absurd hr (hras p)
  | alloc_fails =>
    simp [getPagePixmap, hload, Heap.acquire, _fz_new_pixmap_from_page_with_separations, hr]
  | draw_fails dev =>
    simp [getPagePixmap, hload, Heap.acquire, _fz_new_pixmap_from_page_with_separations, hr]

/-- A rasterization that throws makes the single-page fitted entry points return
`false` with the buffer as it was. -/
theorem fitted_raster_failure_returns_false (E : fz_engine) (pdf : Pdf)
    (pageNumber A H : Int) (rw rh : Option Int) (out : Bytes) (s : Heap) (bbox : fz_rect)
    (hload : E.fz_load_page pageNumber = some bbox)
    (hras : ∀ p, E.raster pageNumber
      (zoomFactor (bbox.x1 - bbox.x0) (bbox.y1 - bbox.y0) A H) ≠ Raster.ok p) :
    (∃ s1, Pdf_getPageFittedRGB E (some pdf) pageNumber A H rw rh (some out) s
      = .ret ⟨false, rw, rh, some out⟩ s1) ∧
    (∃ s1, Pdf_getPageFittedBGRA E (some pdf) pageNumber A H rw rh (some out) s
      = .ret ⟨false, rw, rh, some out⟩ s1) := by
  obtain ⟨s1, h⟩ := getPagePixmap_raster_failure E pdf pageNumber A H rw rh none s bbox hload hras
  exact ⟨⟨s1, by simp [Pdf_getPageFittedRGB, h]⟩, ⟨s1, by simp [Pdf_getPageFittedBGRA, h]⟩⟩

/-- A page load that throws leaves the fitted entry points as an engine error. -/
theorem fitted_load_failure_escapes (E : fz_engine) (pdf : Pdf) (pageNumber A H : Int)
    (rw rh : Option Int) (out : Bytes) (s : Heap)
    (hload : E.fz_load_page pageNumber = none) :
    Pdf_getPageFittedRGB E (some pdf) pageNumber A H rw rh (some out) s = .throw s ∧
    Pdf_getPageFittedBGRA E (some pdf) pageNumber A H rw rh (some out) s = .throw s ∧
    Pdf_get2PagesFittedBGRA E (some pdf) pageNumber A H rw rh (some out) s = .throw s := by
  refine ⟨?_, ?_, ?_⟩
  · simp [Pdf_getPageFittedRGB, getPagePixmap, hload]
  · simp [Pdf_getPageFittedBGRA, getPagePixmap, hload]
  · simp [Pdf_get2PagesFittedBGRA, pageLoop, pagePass, hload]

/-! ## Which bytes the row loop can change -/

/-- A byte whose value the row loop changes lies in the span of one of its rows. -/
theorem bgraRows_changed (samples : Bytes) (srcOf : Int → Int) (A L : Int) (n m : Nat)
    (out : Bytes) (o : Int) (h : bgraRows samples srcOf A L n m out o ≠ out o) :
    ∃ y : Nat, y < m ∧ (y : Int) * A * 4 + L * 4 ≤ o ∧ o < (y : Int) * A * 4 + L * 4 + 4 * n := by
  by_contra hno
  apply h
  apply bgraRows_frame
  intro y hy hspan
  exact hno ⟨y, hy, hspan⟩

/-- A byte in the span of row `y` is byte `k` of the pixel at some column `c` with
`L ≤ c < L + n`. -/
theorem span_pixel (A L o : Int) (y n : Nat) (hL : 0 ≤ L)
    (h : (y : Int) * A * 4 + L * 4 ≤ o ∧ o < (y : Int) * A * 4 + L * 4 + 4 * n) :
    ∃ c k : Nat, k < 4 ∧ L ≤ c ∧ (c : Int) < L + n ∧ o = ((y : Int) * A + c) * 4 + k := by
  refine ⟨(L + (o - ((y : Int) * A * 4 + L * 4)) / 4).toNat,
    ((o - ((y : Int) * A * 4 + L * 4)) % 4).toNat, ?_, ?_, ?_, ?_⟩ <;> omega

/-- A pixel at column `c < A` of row `y < H` lies within the first `A*H*4` bytes. -/
theorem pixel_offset_lt (A H : Int) (c y k : Nat) (hc : (c : Int) < A) (hy : (y : Int) < H)
    (hk : k < 4) : ((y : Int) * A + c) * 4 + k < A * H * 4 := by
  have h1 : ((y : Int) + 1) * A ≤ H * A :=
    mul_le_mul_of_nonneg_right (by omega) (by omega)
  have h2 : ((y : Int) + 1) * A = (y : Int) * A + A := by ring
  have h3 : A * H = H * A := mul_comm A H
  omega

/-- A pixel at a column and row given by natural numbers starts at a non-negative
offset when the pitch is non-negative. -/
theorem pixel_offset_nonneg (A : Int) (c y k : Nat) (hA : 0 ≤ A) :
    0 ≤ ((y : Int) * A + c) * 4 + k := by
  have h1 : 0 ≤ (y : Int) * A := mul_nonneg (by omega) hA
  omega

/-- Destroying the session that a successful `Pdf_create` returned releases its
document, context and record. -/
theorem Pdf_destroy_after_create (E : fz_engine) (cell : Option Pdf) (path : String)
    (s : Heap) (pdf : Pdf)
    (h : (Pdf_create E (some cell) (some path) s).1 = ⟨true, some (some pdf)⟩) :
    (Pdf_destroy (some pdf) (Pdf_create E (some cell) (some path) s).2).2.live = s.live ∧
    (Pdf_destroy (some pdf) (Pdf_create E (some cell) (some path) s).2).2.stray = s.stray := by
  revert h
  unfold Pdf_create
  cases h1 : E.calloc <;> cases h2 : E.fz_new_context <;>
    cases h3 : E.fz_register_document_handlers <;> cases h4 : E.fz_open_document path <;>
    cases h5 : E.fz_count_pages path <;>
    simp [h1, h2, h3, h4, h5, createError, Pdf_destroy, Heap.acquire, Heap.drop, Heap.dropOpt]
  intro hpdf
  subst hpdf
  simp [Heap.drop, Heap.dropOpt]

/-! ## Offsets that stay within the `int` range -/

/-- The rows of the single-page compositor are the ones of `bgraRows` when the
`A*H*4` bytes of the buffer fit the `int` range. -/
theorem fitted_rows_no_overflow (samples : Bytes) (srcOf : Int → Int) (A H h : Int) (n : Nat)
    (out : Bytes) (hA : 0 ≤ A) (hsize : A * H * 4 < 2 ^ 31) :
    bgraRowsGen samples srcOf (fun y => int32 (int32 (y * A) * 4)) n (cmin H h).toNat out
      = bgraRows samples srcOf A 0 n (cmin H h).toNat out := by
  rw [bgraRows_eq_gen]
  apply bgraRowsGen_congr
  · intro y _
    rfl
  · intro y hy
    have hyH : (y : Int) < H := by
      have : cmin H h ≤ H := by rw [cmin_eq_min]; exact min_le_left _ _
      omega
    show int32 (int32 ((y : Int) * A) * 4) = (y : Int) * A * 4 + 0 * 4
    rw [row_offset_fits A H y hA hyH hsize]
    ring

/-- Two pixels of an `A`-pixel pitch that share a byte are the same pixel. -/
theorem pixel_decomp_unique (A : Int) (c y k c1 y1 k1 : Nat) (hc : (c : Int) < A)
    (hc1 : (c1 : Int) < A) (hk : k < 4) (hk1 : k1 < 4)
    (h : ((y : Int) * A + c) * 4 + k = ((y1 : Int) * A + c1) * 4 + k1) : c = c1 ∧ y = y1 := by
  have hsum : (y : Int) * A + c = (y1 : Int) * A + c1 := by omega
  rcases Nat.lt_trichotomy y y1 with hlt | heq | hgt
  · exfalso
    have h1 : ((y : Int) + 1) * A ≤ (y1 : Int) * A :=
      mul_le_mul_of_nonneg_right (by omega) (by omega)
    have h2 : ((y : Int) + 1) * A = (y : Int) * A + A := by ring
    omega
  · subst heq
    exact ⟨by omega, rfl⟩
  · exfalso
    have h1 : ((y1 : Int) + 1) * A ≤ (y : Int) * A :=
      mul_le_mul_of_nonneg_right (by omega) (by omega)
    have h2 : ((y1 : Int) + 1) * A = (y1 : Int) * A + A := by ring
    omega

/-- One pass of the page loop, when the buffer size fits the `int` range and the
budget does not exceed the width left of the running offset: the pass succeeds,
advances the offset by the pixmap width, and changes only bytes of pixels in the
columns from the running offset up to the clipped pixmap width. -/
theorem pagePass_changed (E : fz_engine) (start A H index : Int) (st : Layout) (s : Heap)
    (bbox : fz_rect) (p : fz_pixmap) (hA : 0 ≤ A) (hL : 0 ≤ st.leftOffset)
    (hsize : A * H * 4 < 2 ^ 31) (hbudget : st.assignedWidth ≤ A - st.leftOffset)
    (hload : E.fz_load_page (start + index) = some bbox)
    (hras : E.raster (start + index)
      (zoomFactor (bbox.x1 - bbox.x0) (bbox.y1 - bbox.y0) st.assignedWidth H) = Raster.ok p) :
    ∃ st1 s1, pagePass E start A H index st s = .ret (true, st1) s1 ∧
      st1.leftOffset = st.leftOffset + p.w ∧
      st1.assignedWidth = A - (st.leftOffset + p.w) ∧
      st1.bottomOffset = (if p.h > st.bottomOffset then p.h else st.bottomOffset) ∧
      ∀ o : Int, st1.out o ≠ st.out o →
        ∃ c y k : Nat, k < 4 ∧ o = ((y : Int) * A + c) * 4 + k ∧
          st.leftOffset ≤ c ∧ (c : Int) < st.leftOffset + min st.assignedWidth p.w ∧
          (y : Int) < min H p.h ∧ (c : Int) < A ∧ (y : Int) < H ∧ 0 ≤ o ∧ o < A * H * 4 := by
  obtain ⟨s1, hcall⟩ := pagePass_ok E start A H index st s bbox p hload hras
  refine ⟨_, s1, hcall, rfl, rfl, rfl, ?_⟩
  intro o hne
  obtain ⟨y, hy, hspan⟩ := bgraRowsGen_changed _ _ _ _ _ _ _ hne
  rw [cmin_eq_min] at hy hspan
  have hyH : (y : Int) < H := by omega
  have hn : 0 < min st.assignedWidth p.w := by omega
  have hLA : st.leftOffset < A := by omega
  have hrow := row_offset_fits A H y hA hyH hsize
  have hAH : A * 1 ≤ A * H := mul_le_mul_of_nonneg_left (by omega) hA
  have hleft : int32 (st.leftOffset * 4) = st.leftOffset * 4 :=
    int32_eq_self _ (by omega) (by omega)
  simp only [hrow, hleft] at hspan
  obtain ⟨c, k, hk, hc0, hc, ho⟩ := span_pixel A st.leftOffset o y _ hL hspan
  have hcA : (c : Int) < A := by omega
  refine ⟨c, y, k, hk, ho, hc0, by omega, by omega, hcA, hyH, ?_, ?_⟩
  · rw [ho]; exact pixel_offset_nonneg A c y k hA
  · rw [ho]; exact pixel_offset_lt A H c y k hcA hyH hk

/-! ## Claims -/

/-- C1 (as stated, refuted): with `availableWidth = 2^30` and `availableHeight = 2`
the `int` offset of destination row 1, `1 * 2^30 * 4`, wraps to 0, so the second
row of a 1×2 pixmap is written over the pixel at column 0 of row 0: after the
successful call byte 0 holds 15, the blue sample of row 1, where the claim requires
`samples[2] = 12`, and the pixel at column 0 of row 1, at byte offset `2^30 * 4`, is
not written at all. -/
theorem Pdf_getPageFittedBGRA_row_offset_wraps :
    ∃ r s1, Pdf_getPageFittedBGRA (narrowEngine 3) (some openPdf) 0 1073741824 2 none none
        (some (fun _ => 99)) openHeap = .ret r s1 ∧
      r.ret = true ∧
      ∃ out1, r.outBuffer = some out1 ∧
        (((0 : Nat) : Int) < min 1073741824 (narrowPixmap 3).w ∧
          ((0 : Nat) : Int) < min 2 (narrowPixmap 3).h ∧
          ((1 : Nat) : Int) < min 2 (narrowPixmap 3).h) ∧
        out1 ((((0 : Nat) : Int) * 1073741824 + ((0 : Nat) : Int)) * 4 + 0) = 15 ∧
        (narrowPixmap 3).samples (((0 : Nat) : Int) * (narrowPixmap 3).stride
          + 3 * ((0 : Nat) : Int) + 2) = 12 ∧
        out1 ((((1 : Nat) : Int) * 1073741824 + ((0 : Nat) : Int)) * 4 + 0) = 99 :=
  ⟨_, _, rfl, rfl, _, rfl, by decide, by decide, by decide, by decide⟩

/-- C1 (amended): for a viewport whose buffer size `A*H*4` is below `2^31`, after a
successful `Pdf_getPageFittedBGRA` every pixel at column `x < min(A, w)` and row
`y < min(H, h)` of the destination holds, at byte offset `(y*A + x)*4`, the source
pixel's blue, green and red samples followed by 255. -/
theorem Pdf_getPageFittedBGRA_pixel_mapping (E : fz_engine) (pdf : Pdf)
    (pageNumber A H : Int) (rw rh : Option Int) (out : Bytes) (s : Heap) (bbox : fz_rect)
    (p : fz_pixmap) (hsize : A * H * 4 < 2 ^ 31)
    (hload : E.fz_load_page pageNumber = some bbox)
    (hras : E.raster pageNumber (zoomFactor (bbox.x1 - bbox.x0) (bbox.y1 - bbox.y0) A H)
      = Raster.ok p) :
    ∃ r s1, Pdf_getPageFittedBGRA E (some pdf) pageNumber A H rw rh (some out) s = .ret r s1 ∧
      r.ret = true ∧
      ∃ out1, r.outBuffer = some out1 ∧
        ∀ x y : Nat, (x : Int) < min A p.w → (y : Int) < min H p.h →
          out1 ((y * A + x) * 4 + 0) = p.samples (y * p.stride + 3 * x + 2) ∧
          out1 ((y * A + x) * 4 + 1) = p.samples (y * p.stride + 3 * x + 1) ∧
          out1 ((y * A + x) * 4 + 2) = p.samples (y * p.stride + 3 * x + 0) ∧
          out1 ((y * A + x) * 4 + 3) = 255 := by
  obtain ⟨s1, hcall⟩ :=
    Pdf_getPageFittedBGRA_ok E pdf pageNumber A H rw rh out s bbox p hload hras
  refine ⟨_, s1, hcall, rfl, _, rfl, ?_⟩
  intro x y hx hy
  rw [← cmin_eq_min] at hx hy
  have hAle : cmin A p.w ≤ A := by rw [cmin_eq_min]; exact min_le_left _ _
  have hA : 0 ≤ A := by omega
  rw [fitted_rows_no_overflow p.samples (fun y => y * p.stride) A H p.h _ out hA hsize]
  have hx1 : x < (cmin A p.w).toNat := by omega
  have hy1 : y < (cmin H p.h).toNat := by omega
  have hn : (0 : Int) + ((cmin A p.w).toNat : Int) ≤ A := by omega
  have key := fun k hk =>
    bgraRows_at p.samples (fun y => y * p.stride) A 0 (cmin A p.w).toNat (cmin H p.h).toNat out
      (le_refl 0) hn x y k hx1 hy1 hk
  have k0 := key 0 (by decide)
  have k1 := key 1 (by decide)
  have k2 := key 2 (by decide)
  have k3 := key 3 (by decide)
  simp only [add_zero, Nat.cast_zero, Nat.cast_one, Nat.cast_ofNat, OfNat.ofNat_ne_zero,
    OfNat.zero_ne_ofNat, OfNat.one_ne_ofNat, if_false, if_true, sub_zero] at k0 k1 k2 k3
  refine ⟨?_, ?_, ?_, ?_⟩
  · rw [add_zero, k0]
  · rw [k1]; norm_num
  · rw [k2]; norm_num
  · rw [k3]

/-- C1 (amended) at a sample input: a padded 2×2 pixmap composited into a 2×2
viewport. -/
theorem Pdf_getPageFittedBGRA_pixel_mapping_witness :
    ((2 : Int) * 2 * 4 < 2 ^ 31 ∧
      paddedEngine.fz_load_page 0 = some ⟨0, 0, 2, 2⟩ ∧
      paddedEngine.raster 0 (zoomFactor (2 - 0) (2 - 0) 2 2) = Raster.ok paddedPixmap) ∧
    ∃ r s1, Pdf_getPageFittedBGRA paddedEngine (some openPdf) 0 2 2 none none
        (some (fun _ => 0)) openHeap = .ret r s1 ∧
      r.ret = true ∧
      ∃ out1, r.outBuffer = some out1 ∧
        ∀ x y : Nat, (x : Int) < min 2 paddedPixmap.w → (y : Int) < min 2 paddedPixmap.h →
          out1 ((y * 2 + x) * 4 + 0) = paddedPixmap.samples (y * paddedPixmap.stride + 3 * x + 2) ∧
          out1 ((y * 2 + x) * 4 + 1) = paddedPixmap.samples (y * paddedPixmap.stride + 3 * x + 1) ∧
          out1 ((y * 2 + x) * 4 + 2) = paddedPixmap.samples (y * paddedPixmap.stride + 3 * x + 0) ∧
          out1 ((y * 2 + x) * 4 + 3) = 255 :=
  ⟨⟨by decide, rfl, rfl⟩,
    Pdf_getPageFittedBGRA_pixel_mapping paddedEngine openPdf 0 2 2 none none (fun _ => 0)
      openHeap ⟨0, 0, 2, 2⟩ paddedPixmap (by decide) rfl rfl⟩

/-- C2 (the code at a failing input): `Pdf_getPageRGB` on a tightly packed 2×2 page and
a 12-byte buffer preset to 99 returns success, yet copies only `w = 2` bytes per row
at a destination pitch of `w = 2` bytes: the buffer ends as 0, 1, 6, 7 followed by
untouched bytes, where one byte triplet per pixel would be 0, 1, ..., 11. -/
theorem Pdf_getPageRGB_copies_w_bytes_per_row :
    ∃ r s1, Pdf_getPageRGB tightEngine (some openPdf) 0 none none (some (fun _ => 99)) openHeap
        = .ret r s1 ∧
      r.ret = true ∧
      ∃ out1, r.outBuffer = some out1 ∧
        firstBytes 12 out1 = [0, 1, 6, 7, 99, 99, 99, 99, 99, 99, 99, 99] ∧
        firstBytes 12 tightPixmap.samples = [0, 1, 2, 3, 4, 5, 6, 7, 8, 9, 10, 11] :=
  ⟨_, _, rfl, rfl, _, rfl, by decide, by decide⟩

/-- C3 (the code at a failing input): `Pdf_getPageFittedRGB` on a 1×2 pixmap and a 2×2
viewport, with the 12-byte buffer preset to 99, steps destination rows by the
pixmap width (3 bytes) and not by the viewport pitch (6 bytes): the second source row
lands at bytes 3..5, in column 1 of row 0, and bytes 6..8, the pixel at column 0 of
row 1, stay untouched. -/
theorem Pdf_getPageFittedRGB_steps_rows_by_pixmap_width :
    ∃ r s1, Pdf_getPageFittedRGB (narrowEngine 3) (some openPdf) 0 2 2 none none
        (some (fun _ => 99)) openHeap = .ret r s1 ∧
      r.ret = true ∧
      ∃ out1, r.outBuffer = some out1 ∧
        firstBytes 12 out1 = [10, 11, 12, 13, 14, 15, 99, 99, 99, 99, 99, 99] ∧
        firstBytes 6 (narrowPixmap 3).samples = [10, 11, 12, 13, 14, 15] :=
  ⟨_, _, rfl, rfl, _, rfl, by decide, by decide⟩

/-- C4: for a page box with `w, h > 0` and any viewport `W, H` (in particular one with
`W, H > 0`), the zoom of the fit computation, in exact arithmetic, satisfies `w*zoom ≤ W` and `h*zoom ≤ H`,
and at least one of `w*zoom = W`, `h*zoom = H` holds. -/
theorem zoomFactor_fits_and_binds (w h : ℚ) (W H : Int) (hw : 0 < w) (hh : 0 < h) :
    w * zoomFactor w h W H ≤ W ∧ h * zoomFactor w h W H ≤ H ∧
      (w * zoomFactor w h W H = W ∨ h * zoomFactor w h W H = H) := by
  by_cases hc : h * ((W : ℚ) / w) > H
  · rw [zoomFactor_height_binds w h W H hc]
    have e : h * ((H : ℚ) / h) = H := by field_simp
    have hlt := (scaled_height_gt_iff w h W H hw).mp hc
    refine ⟨?_, le_of_eq e, Or.inr e⟩
    rw [← mul_div_assoc, div_le_iff₀ hh]
    linarith
  · rw [zoomFactor_width_binds w h W H hc]
    have e : w * ((W : ℚ) / w) = W := by field_simp
    exact ⟨le_of_eq e, not_lt.mp hc, Or.inl e⟩

/-- C4 at the letter page 612×792 in the viewport 800×600: the zoom is 600/792 and
the scaled height is exactly 600. -/
theorem zoomFactor_fits_and_binds_witness :
    ((0 : ℚ) < 612 ∧ (0 : ℚ) < 792) ∧
    (zoomFactor 612 792 800 600 = 600 / 792 ∧ (792 : ℚ) * zoomFactor 612 792 800 600 = 600) ∧
    ((612 : ℚ) * zoomFactor 612 792 800 600 ≤ (800 : Int) ∧
      (792 : ℚ) * zoomFactor 612 792 800 600 ≤ (600 : Int) ∧
      ((612 : ℚ) * zoomFactor 612 792 800 600 = (800 : Int) ∨
        (792 : ℚ) * zoomFactor 612 792 800 600 = (600 : Int))) :=
  ⟨⟨by decide, by decide⟩,
    ⟨by norm_num [zoomFactor], by norm_num [zoomFactor]⟩,
    zoomFactor_fits_and_binds 612 792 800 600 (by decide) (by decide)⟩

/-- C5: when both rasterizations succeed, `Pdf_get2PagesFittedBGRA` on a viewport
`(A, H)` with `A ≥ 0` returns success and reports `resultingWidth = w0 + w1` and
`resultingHeight = max(h0, h1)`, where `(w0, h0)` is the size of the pixmap of the
first page fitted against `(floor(A/2), H)` and `(w1, h1)` the size of the pixmap of
the second page fitted against `(A - w0, H)`; pixmap heights are non-negative. -/
theorem Pdf_get2PagesFittedBGRA_reported_region (E : fz_engine) (pdf : Pdf)
    (start A H : Int) (rw rh : Option Int) (out : Bytes) (s : Heap) (bbox0 bbox1 : fz_rect)
    (p0 p1 : fz_pixmap) (hA : 0 ≤ A) (hh0 : 0 ≤ p0.h) (hh1 : 0 ≤ p1.h)
    (hload0 : E.fz_load_page start = some bbox0)
    (hras0 : E.raster start
      (zoomFactor (bbox0.x1 - bbox0.x0) (bbox0.y1 - bbox0.y0) (A / 2) H) = Raster.ok p0)
    (hload1 : E.fz_load_page (start + 1) = some bbox1)
    (hras1 : E.raster (start + 1)
      (zoomFactor (bbox1.x1 - bbox1.x0) (bbox1.y1 - bbox1.y0) (A - p0.w) H) = Raster.ok p1) :
    ∃ r s1, Pdf_get2PagesFittedBGRA E (some pdf) start A H rw rh (some out) s = .ret r s1 ∧
      r.ret = true ∧
      r.width = rw.map (fun _ => p0.w + p1.w) ∧
      r.height = rh.map (fun _ => max p0.h p1.h) := by
  have hdiv : Int.tdiv A 2 = A / 2 := Int.tdiv_eq_ediv hA (by decide)
  obtain ⟨s1, hcall⟩ := Pdf_get2PagesFittedBGRA_ok E pdf start A H rw rh out s bbox0 bbox1 p0 p1
    hload0 (by rw [hdiv]; exact hras0) hload1 hras1
  refine ⟨_, s1, hcall, rfl, rfl, ?_⟩
  have hmax : (if p1.h > (if p0.h > 0 then p0.h else 0) then p1.h
      else (if p0.h > 0 then p0.h else 0)) = max p0.h p1.h := by
    rcases le_total p0.h p1.h with hle | hle
    · rw [max_eq_right hle]
      split_ifs <;> omega
    · rw [max_eq_left hle]
      split_ifs <;> omega
  simp only [hmax]

/-- C5 at two 612×792 pages in the viewport 800×600: each page is given the budget
400 and rendered 400×518, and the reported region is 800×518. -/
theorem Pdf_get2PagesFittedBGRA_reported_region_witness :
    ((0 : Int) ≤ 800 ∧ 0 ≤ letterHalfPixmap.h ∧ 0 ≤ letterHalfPixmap.h ∧
      letterEngine.fz_load_page 0 = some ⟨0, 0, 612, 792⟩ ∧
      letterEngine.raster 0 (zoomFactor (612 - 0) (792 - 0) (800 / 2) 600)
        = Raster.ok letterHalfPixmap ∧
      letterEngine.fz_load_page (0 + 1) = some ⟨0, 0, 612, 792⟩ ∧
      letterEngine.raster (0 + 1) (zoomFactor (612 - 0) (792 - 0) (800 - letterHalfPixmap.w) 600)
        = Raster.ok letterHalfPixmap) ∧
    ((800 : Int) / 2 = 400 ∧ (800 : Int) - letterHalfPixmap.w = 400 ∧
      letterHalfPixmap.w + letterHalfPixmap.w = 800) ∧
    ∃ r s1, Pdf_get2PagesFittedBGRA letterEngine (some openPdf) 0 800 600 (some 0) (some 0)
        (some (fun _ => 0)) openHeap = .ret r s1 ∧
      r.ret = true ∧
      r.width = (some (0 : Int)).map (fun _ => letterHalfPixmap.w + letterHalfPixmap.w) ∧
      r.height = (some (0 : Int)).map (fun _ => max letterHalfPixmap.h letterHalfPixmap.h) :=
  have h0 : letterEngine.raster 0 (zoomFactor (612 - 0) (792 - 0) (800 / 2) 600)
      = Raster.ok letterHalfPixmap := by
    norm_num [letterEngine, letterHalfPixmap, zoomFactor, Int.ceil_eq_iff]
  have h1 : letterEngine.raster (0 + 1)
      (zoomFactor (612 - 0) (792 - 0) (800 - letterHalfPixmap.w) 600)
      = Raster.ok letterHalfPixmap := by
    norm_num [letterEngine, letterHalfPixmap, zoomFactor, Int.ceil_eq_iff]
  ⟨⟨by decide, by decide, by decide, rfl, h0, rfl, h1⟩, ⟨by decide, by decide, by decide⟩,
    Pdf_get2PagesFittedBGRA_reported_region letterEngine openPdf 0 800 600 (some 0) (some 0)
      (fun _ => 0) openHeap ⟨0, 0, 612, 792⟩ ⟨0, 0, 612, 792⟩ letterHalfPixmap letterHalfPixmap
      (by decide) (by decide) (by decide) rfl h0 rfl h1⟩

/-- C6 (the code at a failing input): `Pdf_get2PagesFittedBGRA` on two 1×2 pixmaps of
stride 4 (one byte of row padding) and a 2×2 viewport reads the second source row of
each page from offset `w*3 = 3` and not from offset `stride = 4`: the pixels of row 1
are (15, 14, 13, 255), built from samples 3..5, where the samples of that row, at
offsets 4..6, are 14, 15, 16. -/
theorem Pdf_get2PagesFittedBGRA_steps_source_by_width :
    ∃ r s1, Pdf_get2PagesFittedBGRA (narrowEngine 4) (some openPdf) 0 2 2 none none
        (some (fun _ => 99)) openHeap = .ret r s1 ∧
      r.ret = true ∧
      ∃ out1, r.outBuffer = some out1 ∧
        firstBytes 16 out1
          = [12, 11, 10, 255, 12, 11, 10, 255, 15, 14, 13, 255, 15, 14, 13, 255] ∧
        firstBytes 8 (narrowPixmap 4).samples = [10, 11, 12, 13, 14, 15, 16, 17] :=
  ⟨_, _, rfl, rfl, _, rfl, by decide, by decide⟩

/-- C7 (the code at a failing input): on a two-page document, a page number for which
`fz_load_page` throws makes each fitted entry point end with the engine error
propagating out of the call, not with a returned `false`; `Pdf_getPageRGB`, which
loads the page inside `fz_try`, returns `false` on the same page number. -/
theorem fitted_entry_points_let_load_error_escape :
    paddedEngine.fz_load_page 2 = none ∧
    Pdf_getPageFittedRGB paddedEngine (some openPdf) 2 2 2 none none (some (fun _ => 0)) openHeap
      = .throw openHeap ∧
    Pdf_getPageFittedBGRA paddedEngine (some openPdf) 2 2 2 none none (some (fun _ => 0)) openHeap
      = .throw openHeap ∧
    (∃ s1, Pdf_get2PagesFittedBGRA paddedEngine (some openPdf) 1 2 2 none none
      (some (fun _ => 0)) openHeap = .throw s1) ∧
    ∃ r s1, Pdf_getPageRGB paddedEngine (some openPdf) 2 none none (some (fun _ => 0)) openHeap
      = .ret r s1 ∧ r.ret = false :=
  ⟨rfl, rfl, rfl, ⟨_, rfl⟩, _, _, rfl, rfl⟩

/-- C8: `Pdf_create` returns success exactly when the session record allocation,
context allocation, handler registration, document open and page counting all
succeed, and then hands back a session holding a context and a document; in every
other case it returns failure, leaves `NULL` behind `newPdf`, and has released every
record, context and document it acquired: the live objects are those from before the
call and no release went astray. -/
theorem Pdf_create_all_or_nothing (E : fz_engine) (cell : Option Pdf) (path : String)
    (s : Heap) :
    ((Pdf_create E (some cell) (some path) s).1.ret = true ↔
      (E.calloc = true ∧ E.fz_new_context = true ∧ E.fz_register_document_handlers = true ∧
        E.fz_open_document path = true ∧ (E.fz_count_pages path).isSome = true)) ∧
    ((Pdf_create E (some cell) (some path) s).1.ret = true →
      ∃ pdf context document,
        (Pdf_create E (some cell) (some path) s).1.newPdf = some (some pdf) ∧
        pdf.context = some context ∧ pdf.document = some document ∧
        E.fz_count_pages path = some pdf.pageCount ∧
        (Pdf_create E (some cell) (some path) s).2.live = document :: context :: pdf.self :: s.live ∧
        (Pdf_create E (some cell) (some path) s).2.stray = s.stray) ∧
    ((Pdf_create E (some cell) (some path) s).1.ret = false →
      (Pdf_create E (some cell) (some path) s).1.newPdf = some none ∧
      (Pdf_create E (some cell) (some path) s).2.live = s.live ∧
      (Pdf_create E (some cell) (some path) s).2.stray = s.stray) := by
  unfold Pdf_create
  cases h1 : E.calloc <;> cases h2 : E.fz_new_context <;>
    cases h3 : E.fz_register_document_handlers <;> cases h4 : E.fz_open_document path <;>
    cases h5 : E.fz_count_pages path <;>
    simp [h1, h2, h3, h4, h5, createError, Pdf_destroy, Heap.acquire, Heap.drop, Heap.dropOpt]

/-- C9: each rendering entry point leaves the live objects as they were before the
call and releases nothing that is not live, whatever the engine does (page load or
rasterization failing or succeeding, on either page of the dual-page call) and
however the call ends: every page, pixmap and device acquired during the call has
been released exactly once. -/
theorem rendering_releases_transient_resources (E : fz_engine) (pdf : Option Pdf)
    (pageNumber A H : Int) (rw rh : Option Int) (outBuffer : Option Bytes) (s : Heap) :
    ((Pdf_getPageRGB E pdf pageNumber rw rh outBuffer s).heap.live = s.live ∧
      (Pdf_getPageRGB E pdf pageNumber rw rh outBuffer s).heap.stray = s.stray) ∧
    ((Pdf_getPageFittedRGB E pdf pageNumber A H rw rh outBuffer s).heap.live = s.live ∧
      (Pdf_getPageFittedRGB E pdf pageNumber A H rw rh outBuffer s).heap.stray = s.stray) ∧
    ((Pdf_getPageFittedBGRA E pdf pageNumber A H rw rh outBuffer s).heap.live = s.live ∧
      (Pdf_getPageFittedBGRA E pdf pageNumber A H rw rh outBuffer s).heap.stray = s.stray) ∧
    ((Pdf_get2PagesFittedBGRA E pdf pageNumber A H rw rh outBuffer s).heap.live = s.live ∧
      (Pdf_get2PagesFittedBGRA E pdf pageNumber A H rw rh outBuffer s).heap.stray = s.stray) :=
  ⟨Pdf_getPageRGB_heap E pdf pageNumber rw rh outBuffer s,
    Pdf_getPageFittedRGB_heap E pdf pageNumber A H rw rh outBuffer s,
    Pdf_getPageFittedBGRA_heap E pdf pageNumber A H rw rh outBuffer s,
    Pdf_get2PagesFittedBGRA_heap E pdf pageNumber A H rw rh outBuffer s⟩

/-- C10 (as stated, refuted): the square page 1×1 in the viewport 2×2 is scaled to
2×2, so the fitted width equals `W` and the fitted height equals `H` together,
although the unscaled page does not fit both exactly (`w ≠ W`): it is not the case
that exactly one equality holds unless `w = W` and `h = H`. Every value involved
(1, 2 and the zoom 2) is exact in binary32 as well. -/
theorem exactly_one_binding_dimension_fails :
    ¬ (¬ ((1 : ℚ) = (2 : Int) ∧ (1 : ℚ) = (2 : Int)) →
        (((1 : ℚ) * zoomFactor 1 1 2 2 = (2 : Int) ∧ ¬ (1 : ℚ) * zoomFactor 1 1 2 2 = (2 : Int)) ∨
         (¬ (1 : ℚ) * zoomFactor 1 1 2 2 = (2 : Int) ∧ (1 : ℚ) * zoomFactor 1 1 2 2 = (2 : Int)))) := by
  norm_num [zoomFactor]

/-- C10 (amended): with the fit computation taken in exact arithmetic, for a page
box with `w, h > 0` and any viewport `W, H` (in particular one with `W, H > 0`), at
least one of fitted width `= W`, fitted height `= H` holds, and both hold together
exactly when the page box has the aspect ratio of the viewport (`w*H = h*W`);
otherwise exactly one holds. -/
theorem binding_dimension_unique_iff_aspect_differs (w h : ℚ) (W H : Int) (hw : 0 < w)
    (hh : 0 < h) :
    ((w * zoomFactor w h W H = W ∧ h * zoomFactor w h W H = H) ↔ w * H = h * W) ∧
    (w * H ≠ h * W →
      ((w * zoomFactor w h W H = W ∧ ¬ h * zoomFactor w h W H = H) ∨
       (¬ w * zoomFactor w h W H = W ∧ h * zoomFactor w h W H = H))) := by
  by_cases hc : h * ((W : ℚ) / w) > H
  · rw [zoomFactor_height_binds w h W H hc]
    have e : h * ((H : ℚ) / h) = H := by field_simp
    have hlt := (scaled_height_gt_iff w h W H hw).mp hc
    have hne : ¬ w * ((H : ℚ) / h) = W := by
      rw [← mul_div_assoc, div_eq_iff (ne_of_gt hh)]
      intro heq
      linarith
    refine ⟨⟨fun hb => absurd hb.1 hne, fun heq => ?_⟩, fun _ => Or.inr ⟨hne, e⟩⟩
    linarith
  · rw [zoomFactor_width_binds w h W H hc]
    have e : w * ((W : ℚ) / w) = W := by field_simp
    have hiff : h * ((W : ℚ) / w) = H ↔ w * H = h * W := by
      rw [← mul_div_assoc, div_eq_iff (ne_of_gt hw)]
      constructor
      · intro heq; linarith
      · intro heq; linarith
    refine ⟨⟨fun hb => hiff.mp hb.2, fun heq => ⟨e, hiff.mpr heq⟩⟩, fun hne => Or.inl ⟨e, ?_⟩⟩
    exact fun hb => hne (hiff.mp hb)

/-- C10 (amended) at the letter page 612×792 in the viewport 800×600, in exact
arithmetic: the aspect ratios differ and only the height binds. -/
theorem binding_dimension_unique_iff_aspect_differs_witness :
    ((0 : ℚ) < 612 ∧ (0 : ℚ) < 792) ∧
    (((612 : ℚ) * zoomFactor 612 792 800 600 = (800 : Int) ∧
        (792 : ℚ) * zoomFactor 612 792 800 600 = (600 : Int)) ↔
      (612 : ℚ) * (600 : Int) = 792 * (800 : Int)) ∧
    ((612 : ℚ) * (600 : Int) ≠ 792 * (800 : Int) →
      (((612 : ℚ) * zoomFactor 612 792 800 600 = (800 : Int) ∧
          ¬ (792 : ℚ) * zoomFactor 612 792 800 600 = (600 : Int)) ∨
       (¬ (612 : ℚ) * zoomFactor 612 792 800 600 = (800 : Int) ∧
          (792 : ℚ) * zoomFactor 612 792 800 600 = (600 : Int)))) :=
  ⟨⟨by decide, by decide⟩,
    binding_dimension_unique_iff_aspect_differs 612 792 800 600 (by decide) (by decide)⟩

/-- C11 (as stated, refuted): `Pdf_destroy` returns `false`, the value every entry
point uses to report failure, both for a null session and for an open session that
it has just released; it does not return success. -/
theorem Pdf_destroy_returns_failure_value :
    ¬ ((Pdf_destroy none openHeap).1 = true) ∧
    ¬ ((Pdf_destroy (some openPdf) openHeap).1 = true) ∧
    (Pdf_destroy (some openPdf) openHeap).2.live = [] := by
  decide

/-- C11 (amended): for every session argument, including a null one, `Pdf_destroy`
returns `false`; called with a null session it releases nothing and changes no
state. -/
theorem Pdf_destroy_returns_false_and_null_is_noop (pdf : Option Pdf) (s : Heap) :
    (Pdf_destroy pdf s).1 = false ∧ Pdf_destroy none s = (false, s) := by
  cases pdf with
  | none => exact ⟨rfl, rfl⟩
  | some p => exact ⟨rfl, rfl⟩

/-- C12 (as stated, refuted): with `availableWidth = 2^30 + 1` and
`availableHeight = 2` the `int` offset of destination row 1, `(2^30 + 1) * 4`, wraps
to 4, so the second row of a 1×2 pixmap is written over bytes 4..7: byte 4, which
belongs to no pixel at a column `x < min(A, w) = 1` and a row `y < 2`, held 99 before
the call and holds 15 after it. -/
theorem Pdf_getPageFittedBGRA_wrapped_row_overwrites_remainder :
    ∃ r s1, Pdf_getPageFittedBGRA (narrowEngine 3) (some openPdf) 0 1073741825 2 none none
        (some (fun _ => 99)) openHeap = .ret r s1 ∧
      r.ret = true ∧
      ∃ out1, r.outBuffer = some out1 ∧
        (¬ ∃ x y k : Nat, (x : Int) < min 1073741825 (narrowPixmap 3).w ∧
          (y : Int) < min 2 (narrowPixmap 3).h ∧ k < 4 ∧
          (4 : Int) = ((y : Int) * 1073741825 + x) * 4 + k) ∧
        out1 4 = 15 ∧ (fun _ => 99 : Bytes) 4 = 99 := by
  refine ⟨_, _, rfl, rfl, _, rfl, ?_, by decide, rfl⟩
  rintro ⟨x, y, k, hx, _, _, h⟩
  have hx0 : (x : Int) < 1 := lt_of_lt_of_le hx (min_le_right _ _)
  omega

/-- C12 (amended): for a viewport whose buffer size `A*H*4` is below `2^31`, after a
successful `Pdf_getPageFittedBGRA` every byte of the destination that is not one of
the four bytes of a pixel at a column `x < min(A, w)` and a row `y < min(H, h)`
holds the value it held before the call. -/
theorem Pdf_getPageFittedBGRA_remainder_untouched (E : fz_engine) (pdf : Pdf)
    (pageNumber A H : Int) (rw rh : Option Int) (out : Bytes) (s : Heap) (bbox : fz_rect)
    (p : fz_pixmap) (hsize : A * H * 4 < 2 ^ 31)
    (hload : E.fz_load_page pageNumber = some bbox)
    (hras : E.raster pageNumber (zoomFactor (bbox.x1 - bbox.x0) (bbox.y1 - bbox.y0) A H)
      = Raster.ok p) :
    ∃ r s1, Pdf_getPageFittedBGRA E (some pdf) pageNumber A H rw rh (some out) s = .ret r s1 ∧
      r.ret = true ∧
      ∃ out1, r.outBuffer = some out1 ∧
        ∀ o : Int,
          (¬ ∃ x y k : Nat, (x : Int) < min A p.w ∧ (y : Int) < min H p.h ∧ k < 4 ∧
            o = ((y : Int) * A + x) * 4 + k) →
          out1 o = out o := by
  obtain ⟨s1, hcall⟩ :=
    Pdf_getPageFittedBGRA_ok E pdf pageNumber A H rw rh out s bbox p hload hras
  refine ⟨_, s1, hcall, rfl, _, rfl, ?_⟩
  intro o hout
  by_contra hne
  obtain ⟨y, hy, hspan⟩ := bgraRowsGen_changed _ _ _ _ _ _ _ hne
  rw [cmin_eq_min] at hy hspan
  have hyH : (y : Int) < H := by omega
  have hA : 0 ≤ A := by omega
  have hrow := row_offset_fits A H y hA hyH hsize
  simp only [hrow] at hspan
  obtain ⟨c, k, hk, _, hc, ho⟩ :=
    span_pixel A 0 o y (min A p.w).toNat (le_refl 0) (by omega)
  exact hout ⟨c, y, k, by omega, by omega, hk, ho⟩

/-- C12 (amended) at a sample input: a padded 2×2 pixmap composited into a 3×3
viewport. -/
theorem Pdf_getPageFittedBGRA_remainder_untouched_witness :
    ((3 : Int) * 3 * 4 < 2 ^ 31 ∧
      paddedEngine.fz_load_page 0 = some ⟨0, 0, 2, 2⟩ ∧
      paddedEngine.raster 0 (zoomFactor (2 - 0) (2 - 0) 3 3) = Raster.ok paddedPixmap) ∧
    ∃ r s1, Pdf_getPageFittedBGRA paddedEngine (some openPdf) 0 3 3 none none
        (some (fun _ => 7)) openHeap = .ret r s1 ∧
      r.ret = true ∧
      ∃ out1, r.outBuffer = some out1 ∧
        ∀ o : Int,
          (¬ ∃ x y k : Nat, (x : Int) < min 3 paddedPixmap.w ∧ (y : Int) < min 3 paddedPixmap.h ∧
            k < 4 ∧ o = ((y : Int) * 3 + x) * 4 + k) →
          out1 o = (fun _ => 7) o :=
  ⟨⟨by decide, rfl, rfl⟩,
    Pdf_getPageFittedBGRA_remainder_untouched paddedEngine openPdf 0 3 3 none none (fun _ => 7)
      openHeap ⟨0, 0, 2, 2⟩ paddedPixmap (by decide) rfl rfl⟩

/-- C13 (as stated, refuted): with `availableWidth = 2^29 + 1` and
`availableHeight = 2` the `int` offset of destination row 1, `(2^29 + 1) * 4`, wraps
to `-2^31 + 4`, so the second row of the first 1×2 pixmap is written in front of the
buffer: the byte at offset `-2147483644`, which belongs to no pixel of the buffer,
held 99 before the call and holds 15 after it. -/
theorem Pdf_get2PagesFittedBGRA_wrapped_row_leaves_buffer :
    ((0 : Int) ≤ 536870913 ∧ (0 : Int) ≤ 2 ∧ 0 ≤ (narrowPixmap 3).w ∧ 0 ≤ (narrowPixmap 3).h) ∧
    ∃ r s1, Pdf_get2PagesFittedBGRA (narrowEngine 3) (some openPdf) 0 536870913 2 none none
        (some (fun _ => 99)) openHeap = .ret r s1 ∧
      r.ret = true ∧
      ∃ out1, r.outBuffer = some out1 ∧
        out1 (-2147483644) = 15 ∧ (fun _ => 99 : Bytes) (-2147483644) = 99 ∧
        ¬ ∃ c y k : Nat, (-2147483644 : Int) = ((y : Int) * 536870913 + c) * 4 + k := by
  refine ⟨by decide, _, _, rfl, rfl, _, rfl, by decide, rfl, ?_⟩
  rintro ⟨c, y, k, h⟩
  omega

/-- C13 (amended): in a successful `Pdf_get2PagesFittedBGRA` on a viewport with
`A ≥ 0` whose buffer size `A*H*4` is below `2^31`, and a first pixmap of width
`w0 ≥ 0`, whatever the sizes of the two pixmaps: the call is the pass for the first
page followed by the pass for the second; every byte whose value the first pass
changes (for any initial buffer) is a byte of a pixel at a column
`c < min(floor(A/2), w0)` and a row `y < min(H, h0)`; every byte whose value the
second pass changes is a byte of a pixel at a column `w0 ≤ c < w0 + min(A - w0, w1)`
and a row `y < min(H, h1)`; each such pixel has `c < A`, `y < H` and an offset in
`[0, A*H*4)`; and the second pass leaves every pixel in a column of the first page
as the first pass left it. -/
theorem Pdf_get2PagesFittedBGRA_writes_in_bounds (E : fz_engine) (pdf : Pdf)
    (start A H : Int) (rw rh : Option Int) (out : Bytes) (s : Heap) (bbox0 bbox1 : fz_rect)
    (p0 p1 : fz_pixmap) (hA : 0 ≤ A) (hw0 : 0 ≤ p0.w) (hsize : A * H * 4 < 2 ^ 31)
    (hload0 : E.fz_load_page start = some bbox0)
    (hras0 : E.raster start
      (zoomFactor (bbox0.x1 - bbox0.x0) (bbox0.y1 - bbox0.y0) (A / 2) H) = Raster.ok p0)
    (hload1 : E.fz_load_page (start + 1) = some bbox1)
    (hras1 : E.raster (start + 1)
      (zoomFactor (bbox1.x1 - bbox1.x0) (bbox1.y1 - bbox1.y0) (A - p0.w) H) = Raster.ok p1) :
    ∃ st1 s1 st2 s2,
      pagePass E start A H 0 ⟨A / 2, 0, 0, out⟩ s = .ret (true, st1) s1 ∧
      pagePass E start A H 1 st1 s1 = .ret (true, st2) s2 ∧
      Pdf_get2PagesFittedBGRA E (some pdf) start A H rw rh (some out) s
        = .ret ⟨true, rw.map (fun _ => st2.leftOffset), rh.map (fun _ => st2.bottomOffset),
            some st2.out⟩ s2 ∧
      (∀ o : Int, st1.out o ≠ out o →
        ∃ c y k : Nat, k < 4 ∧ o = ((y : Int) * A + c) * 4 + k ∧
          (c : Int) < min (A / 2) p0.w ∧ (y : Int) < min H p0.h ∧
          (c : Int) < A ∧ (y : Int) < H ∧ 0 ≤ o ∧ o < A * H * 4) ∧
      (∀ o : Int, st2.out o ≠ st1.out o →
        ∃ c y k : Nat, k < 4 ∧ o = ((y : Int) * A + c) * 4 + k ∧
          p0.w ≤ c ∧ (c : Int) < p0.w + min (A - p0.w) p1.w ∧ (y : Int) < min H p1.h ∧
          (c : Int) < A ∧ (y : Int) < H ∧ 0 ≤ o ∧ o < A * H * 4) ∧
      (∀ c y k : Nat, (c : Int) < min (A / 2) p0.w → k < 4 →
        st2.out (((y : Int) * A + c) * 4 + k) = st1.out (((y : Int) * A + c) * 4 + k)) := by
  have hdiv : Int.tdiv A 2 = A / 2 := Int.tdiv_eq_ediv hA (by decide)
  obtain ⟨st1, s1, hp0, hl0, ha0, _, hch0⟩ :=
    pagePass_changed E start A H 0 ⟨A / 2, 0, 0, out⟩ s bbox0 p0 hA (le_refl 0) hsize
      (show A / 2 ≤ A - 0 by omega) (by simpa using hload0) (by simpa using hras0)
  simp only [zero_add] at hl0 ha0 hch0
  obtain ⟨st2, s2, hp1, _, _, _, hch1⟩ :=
    pagePass_changed E start A H 1 st1 s1 bbox1 p1 hA (by rw [hl0]; exact hw0) hsize
      (le_of_eq (by rw [ha0, hl0])) hload1 (by rw [ha0]; exact hras1)
  simp only [hl0, ha0] at hch1
  refine ⟨st1, s1, st2, s2, hp0, hp1, ?_, ?_, ?_, ?_⟩
  · simp only [Pdf_get2PagesFittedBGRA, pageLoop, hdiv, hp0, zero_add, hp1]
  · intro o hne
    obtain ⟨c, y, k, hk, ho, _, hc, hy, hcA, hyH, h0, hlt⟩ := hch0 o hne
    exact ⟨c, y, k, hk, ho, hc, hy, hcA, hyH, h0, hlt⟩
  · intro o hne
    obtain ⟨c, y, k, hk, ho, hc0, hc, hy, hcA, hyH, h0, hlt⟩ := hch1 o hne
    exact ⟨c, y, k, hk, ho, hc0, hc, hy, hcA, hyH, h0, hlt⟩
  · intro c y k hc hk
    by_contra hne
    obtain ⟨c1, y1, k1, hk1, ho, hc0, _, _, hcA, _, _, _⟩ := hch1 _ hne
    have hcA0 : (c : Int) < A := by omega
    have huniq := pixel_decomp_unique A c y k c1 y1 k1 hcA0 hcA hk hk1 ho
    omega

/-- C13 (amended) at a sample input: two 1×2 pixmaps composited into a 2×2
viewport. -/
theorem Pdf_get2PagesFittedBGRA_writes_in_bounds_witness :
    ((0 : Int) ≤ 2 ∧ 0 ≤ (narrowPixmap 3).w ∧ (2 : Int) * 2 * 4 < 2 ^ 31 ∧
      (narrowEngine 3).fz_load_page 0 = some ⟨0, 0, 1, 2⟩ ∧
      (narrowEngine 3).raster 0 (zoomFactor (1 - 0) (2 - 0) (2 / 2) 2)
        = Raster.ok (narrowPixmap 3) ∧
      (narrowEngine 3).fz_load_page (0 + 1) = some ⟨0, 0, 1, 2⟩ ∧
      (narrowEngine 3).raster (0 + 1) (zoomFactor (1 - 0) (2 - 0) (2 - (narrowPixmap 3).w) 2)
        = Raster.ok (narrowPixmap 3)) ∧
    ∃ st1 s1 st2 s2,
      pagePass (narrowEngine 3) 0 2 2 0 ⟨2 / 2, 0, 0, fun _ => 99⟩ openHeap
        = .ret (true, st1) s1 ∧
      pagePass (narrowEngine 3) 0 2 2 1 st1 s1 = .ret (true, st2) s2 ∧
      Pdf_get2PagesFittedBGRA (narrowEngine 3) (some openPdf) 0 2 2 none none
          (some (fun _ => 99)) openHeap
        = .ret ⟨true, (none : Option Int).map (fun _ => st2.leftOffset),
            (none : Option Int).map (fun _ => st2.bottomOffset), some st2.out⟩ s2 ∧
      (∀ o : Int, st1.out o ≠ (fun _ => 99 : Bytes) o →
        ∃ c y k : Nat, k < 4 ∧ o = ((y : Int) * 2 + c) * 4 + k ∧
          (c : Int) < min (2 / 2) (narrowPixmap 3).w ∧ (y : Int) < min 2 (narrowPixmap 3).h ∧
          (c : Int) < 2 ∧ (y : Int) < 2 ∧ 0 ≤ o ∧ o < 2 * 2 * 4) ∧
      (∀ o : Int, st2.out o ≠ st1.out o →
        ∃ c y k : Nat, k < 4 ∧ o = ((y : Int) * 2 + c) * 4 + k ∧
          (narrowPixmap 3).w ≤ c ∧
          (c : Int) < (narrowPixmap 3).w + min (2 - (narrowPixmap 3).w) (narrowPixmap 3).w ∧
          (y : Int) < min 2 (narrowPixmap 3).h ∧
          (c : Int) < 2 ∧ (y : Int) < 2 ∧ 0 ≤ o ∧ o < 2 * 2 * 4) ∧
      (∀ c y k : Nat, (c : Int) < min (2 / 2) (narrowPixmap 3).w → k < 4 →
        st2.out (((y : Int) * 2 + c) * 4 + k) = st1.out (((y : Int) * 2 + c) * 4 + k)) :=
  ⟨⟨by decide, by decide, by decide, rfl, rfl, rfl, rfl⟩,
    Pdf_get2PagesFittedBGRA_writes_in_bounds (narrowEngine 3) openPdf 0 2 2 none none
      (fun _ => 99) openHeap ⟨0, 0, 1, 2⟩ ⟨0, 0, 1, 2⟩ (narrowPixmap 3) (narrowPixmap 3)
      (by decide) (by decide) (by decide) rfl rfl rfl rfl⟩

end Mupdf2rgb
